import Mathlib

/-
Shallow embedding of the streaming microstructure analytics and
anomaly-detection core of the repository:

  src/core/analytics.py        (OrderBook, MicrostructureAnalyzer)
  src/core/anomaly_detection.py (AnomalyDetector)
  src/core/data_validator.py   (DataValidator)

Python floats are idealised as exact rationals; the transcendental
operations of the source (math.exp, math.log, math.sqrt) are modelled by
the corresponding real functions.  A raised Python exception is modelled
as an Except.error value.  Timestamps and human-readable message strings
carry no analytical content and are omitted; the entries of the anomaly
details mapping that the detectors actually populate (side, 1-based
level) are kept as explicit fields.
-/

namespace Market

/-- One order-book level (OrderBookLevel, analytics.py 24-28). -/
structure OrderBookLevel where
  price : ℚ
  volume : ℚ
deriving DecidableEq, Repr

instance : Inhabited OrderBookLevel := ⟨⟨0, 0⟩⟩

/-- An L2 snapshot (OrderBook, analytics.py 31-77).  The optional
timestamp is omitted: it only decorates anomalies. -/
structure OrderBook where
  bids : List OrderBookLevel
  asks : List OrderBookLevel
deriving DecidableEq, Repr

namespace OrderBook

/-- Property best_bid (analytics.py 38-41). -/
def bestBid? (b : OrderBook) : Option OrderBookLevel := b.bids.head?

/-- Property best_ask (analytics.py 43-46). -/
def bestAsk? (b : OrderBook) : Option OrderBookLevel := b.asks.head?

/-- Property mid_price (analytics.py 48-53). -/
def midPrice? (b : OrderBook) : Option ℚ :=
  match b.bids.head?, b.asks.head? with
  | some bb, some ba => some ((bb.price + ba.price) / 2)
  | _, _ => none

/-- Property spread (analytics.py 55-60). -/
def spread? (b : OrderBook) : Option ℚ :=
  match b.bids.head?, b.asks.head? with
  | some bb, some ba => some (ba.price - bb.price)
  | _, _ => none

/-- Property spread_bps (analytics.py 62-67).  The source guard
`if self.spread and self.mid_price` tests Python truthiness, so a zero
spread or a zero mid-price yields None, not 0. -/
def spreadBps? (b : OrderBook) : Option ℚ :=
  match b.spread?, b.midPrice? with
  | some s, some m => if s = 0 ∨ m = 0 then none else some (s / m * 10000)
  | _, _ => none

/-- The data-model invariants of spec section 3 for a book handed to an
analyzer: non-empty sides, positive prices, non-negative volumes, and an
uncrossed top of book. -/
def Valid (b : OrderBook) : Prop :=
  b.bids ≠ [] ∧ b.asks ≠ [] ∧
  (∀ l ∈ b.bids ++ b.asks, 0 < l.price ∧ 0 ≤ l.volume) ∧
  (b.bids.headI).price < (b.asks.headI).price

instance : DecidablePred Valid := fun b => by
  unfold Valid; infer_instance

end OrderBook

/-- Push onto a fixed-capacity deque (collections.deque with maxlen):
append, then evict oldest-first past capacity. -/
def pushCap (cap : ℕ) (l : List ℚ) (x : ℚ) : List ℚ :=
  let l' := l ++ [x]
  l'.drop (l'.length - cap)

/-- Python round(x, n) idealised over the rationals (round to n decimal
places; the tie-breaking mode is irrelevant to every property proved in
this file). -/
def roundQ (n : ℕ) (x : ℚ) : ℚ := (round (x * 10 ^ n) : ℤ) / 10 ^ n

/-- Python round(x, n) for real-valued quantities. -/
noncomputable def roundR (n : ℕ) (x : ℝ) : ℝ := ((round (x * 10 ^ n) : ℤ) : ℝ) / 10 ^ n

/-- Instance state of MicrostructureAnalyzer (analytics.py 111-146):
configuration first (immutable after construction), then the rolling
state fields. -/
structure MState where
  ofiWindow : ℕ
  priceHistorySize : ℕ
  vpinBucketSize : ℚ
  decayFactor : ℚ
  prevBestBid : Option ℚ
  prevBestAsk : Option ℚ
  prevBidQty : ℚ
  prevAskQty : ℚ
  ofiHistory : List ℚ
  priceHistory : List ℚ
  currentBucketVolume : ℚ
  currentBucketBuys : ℚ
  currentBucketSells : ℚ
  bucketImbalances : List ℚ
deriving DecidableEq, Repr

/-- The constructor of MicrostructureAnalyzer. -/
def initM (ofiWindow priceHistorySize : ℕ) (vpinBucketSize decayFactor : ℚ) : MState :=
  ⟨ofiWindow, priceHistorySize, vpinBucketSize, decayFactor,
   none, none, 0, 0, [], [], 0, 0, 0, []⟩

/-- The constructor with its default arguments (50, 100, 1000.0, 0.5). -/
def defaultM : MState := initM 50 100 1000 (1 / 2)

/-- MicrostructureAnalyzer.reset (analytics.py 352-363). -/
def resetM (st : MState) : MState :=
  { st with
    prevBestBid := none
    prevBestAsk := none
    prevBidQty := 0
    prevAskQty := 0
    ofiHistory := []
    priceHistory := []
    currentBucketVolume := 0
    currentBucketBuys := 0
    currentBucketSells := 0
    bucketImbalances := [] }

/-- The raw (pre-normalisation) OFI of _calculate_ofi (analytics.py
213-230).  The source tests only prev_best_bid for None; the two prev
fields are always set together, so the getD default on the ask side is
unreachable. -/
def rawOfi (st : MState) (bb ba : OrderBookLevel) : ℚ :=
  match st.prevBestBid with
  | none => 0
  | some pb =>
    let pa := st.prevBestAsk.getD 0
    let bidC : ℚ :=
      if pb < bb.price then bb.volume
      else if bb.price < pb then -st.prevBidQty
      else bb.volume - st.prevBidQty
    let askC : ℚ :=
      if pa < ba.price then st.prevAskQty
      else if ba.price < pa then -ba.volume
      else -(ba.volume - st.prevAskQty)
    bidC + askC

/-- The normalisation step of _calculate_ofi (analytics.py 241-245): on
a non-empty history, divide by its maximum and clamp to the interval
from -1 to 1 whenever that maximum is positive; the maximum defaults to
1 on an empty history as in the source. -/
def normalizeOfi (raw : ℚ) (hist : List ℚ) : ℚ :=
  if hist = [] then raw
  else
    let maxOfi := hist.maximum.unbot' 1
    if 0 < maxOfi then max (-1) (min 1 (raw / maxOfi)) else raw

/-- _calculate_ofi (analytics.py 206-247): computes the raw OFI, updates
the prev fields, pushes the absolute raw value into the bounded history,
then normalises by the history maximum. -/
def calcOfi (st : MState) (bb ba : OrderBookLevel) : ℚ × MState :=
  let raw := rawOfi st bb ba
  let hist := pushCap st.ofiWindow st.ofiHistory |raw|
  let st' := { st with
    prevBestBid := some bb.price
    prevBestAsk := some ba.price
    prevBidQty := bb.volume
    prevAskQty := ba.volume
    ofiHistory := hist }
  (normalizeOfi raw hist, st')

/-- Number of levels compared by _calculate_obi (analytics.py 260). -/
def obiNumLevels (b : OrderBook) : ℕ := min 5 (min b.bids.length b.asks.length)

/-- The bid volume book.bids[i].volume read by _calculate_obi; the
default is unreachable for the compared indices. -/
def bidVolAt (b : OrderBook) (i : ℕ) : ℚ := (b.bids.getD i default).volume

/-- The ask volume book.asks[i].volume read by _calculate_obi. -/
def askVolAt (b : OrderBook) (i : ℕ) : ℚ := (b.asks.getD i default).volume

/-- Level weight of _calculate_obi: exp(-decay_factor * i). -/
noncomputable def obiWeight (decay : ℚ) (i : ℕ) : ℝ := Real.exp (-(decay : ℝ) * i)

/-- Weighted bid volume accumulated by _calculate_obi. -/
noncomputable def obiWeightedBid (decay : ℚ) (b : OrderBook) : ℝ :=
  ((List.range (obiNumLevels b)).map fun i =>
    (bidVolAt b i : ℝ) * obiWeight decay i).sum

/-- Weighted ask volume accumulated by _calculate_obi. -/
noncomputable def obiWeightedAsk (decay : ℚ) (b : OrderBook) : ℝ :=
  ((List.range (obiNumLevels b)).map fun i =>
    (askVolAt b i : ℝ) * obiWeight decay i).sum

/-- Total weight accumulated by _calculate_obi. -/
noncomputable def obiTotalWeight (decay : ℚ) (b : OrderBook) : ℝ :=
  ((List.range (obiNumLevels b)).map fun i =>
    ((bidVolAt b i : ℝ) + (askVolAt b i : ℝ)) * obiWeight decay i).sum

/-- _calculate_obi (analytics.py 249-271). -/
noncomputable def calcObi (st : MState) (b : OrderBook) : ℝ :=
  if obiTotalWeight st.decayFactor b < 1 / 10 ^ 9 then 0
  else (obiWeightedBid st.decayFactor b - obiWeightedAsk st.decayFactor b) /
    obiTotalWeight st.decayFactor b

/-- _calculate_microprice (analytics.py 273-287). -/
def calcMicroprice (bb ba : OrderBookLevel) : ℚ :=
  let total := bb.volume + ba.volume
  if total < 1 / 10 ^ 9 then (bb.price + ba.price) / 2
  else (bb.volume * ba.price + ba.volume * bb.price) / total

/-- _calculate_volatility (analytics.py 289-314); the window is the
hard-coded default argument 20. -/
noncomputable def calcVolatility (l : List ℚ) : Option ℝ :=
  if l.length < 20 then none
  else
    let prices := l.drop (l.length - 20)
    let logReturns := (prices.zip prices.tail).filterMap fun pq =>
      if 0 < pq.1 ∧ 0 < pq.2 then some (Real.log ((pq.2 : ℝ) / (pq.1 : ℝ))) else none
    if logReturns.isEmpty then none
    else
      let n : ℝ := logReturns.length
      let mean := logReturns.sum / n
      let variance := ((logReturns.map fun r => (r - mean) ^ 2).sum) / n
      some (Real.sqrt variance)

/-- Logistic directional probability (analytics.py 180). -/
noncomputable def directionalProb (score : ℚ) : ℝ := 100 / (1 + Real.exp (-2 * (score : ℝ)))

/-- Output record MicrostructureMetrics (analytics.py 80-95).  The vpin
field is never set by analyze and keeps its None default. -/
structure MicrostructureMetrics where
  midPrice : ℚ
  spread : ℚ
  spreadBps : ℚ
  ofi : ℚ
  obi : ℝ
  microprice : ℚ
  micropriceDivergence : ℚ
  directionalProbability : ℝ
  totalBidDepth : ℚ
  totalAskDepth : ℚ
  depthImbalance : ℚ
  volatility : Option ℝ
  vpin : Option ℚ

/-- The exceptions MicrostructureAnalyzer.analyze can raise: ValueError
on an empty book side, TypeError from round(None, 2) when the spread_bps
property returns None. -/
inductive MErr
  | valueError
  | typeError
deriving DecidableEq, Repr

/-- Mid-price of a non-empty book, as analyze reads it. -/
def microMid (b : OrderBook) : ℚ := (b.bids.headI.price + b.asks.headI.price) / 2

/-- Top-of-book spread of a non-empty book, as analyze reads it. -/
def microSpread (b : OrderBook) : ℚ := b.asks.headI.price - b.bids.headI.price

/-- The analyzer state after one analyze call on a non-empty book: the
OFI state update followed by the mid-price append (analytics.py 188). -/
def microState2 (st : MState) (b : OrderBook) : MState :=
  let st1 := (calcOfi st b.bids.headI b.asks.headI).2
  { st1 with priceHistory := pushCap st1.priceHistorySize st1.priceHistory (microMid b) }

open Classical in
/-- The metrics record built by analyze (analytics.py 191-204) given the
value of the spread_bps property. -/
noncomputable def microMetrics (st : MState) (b : OrderBook) (sbps : ℚ) :
    MicrostructureMetrics :=
  let mid := microMid b
  let spread := microSpread b
  let microprice := calcMicroprice b.bids.headI b.asks.headI
  let divergence := microprice - mid
  let tick := if 0 < spread then spread / 10 else 1 / 100
  let score := if 0 < tick then divergence / tick else 0
  let totalBid := (b.bids.map (·.volume)).sum
  let totalAsk := (b.asks.map (·.volume)).sum
  let depthImb := if 0 < totalBid + totalAsk then (totalBid - totalAsk) / (totalBid + totalAsk) else 0
  { midPrice := roundQ 6 mid
    spread := roundQ 6 spread
    spreadBps := roundQ 2 sbps
    ofi := roundQ 4 (calcOfi st b.bids.headI b.asks.headI).1
    obi := roundR 4 (calcObi st b)
    microprice := roundQ 6 microprice
    micropriceDivergence := roundQ 6 divergence
    directionalProbability := roundR 1 (directionalProb score)
    totalBidDepth := roundQ 2 totalBid
    totalAskDepth := roundQ 2 totalAsk
    depthImbalance := roundQ 4 depthImb
    volatility :=
      match calcVolatility (microState2 st b).priceHistory with
      | some v => if v = 0 then none else some (roundR 6 v)
      | none => none
    vpin := none }

/-- MicrostructureAnalyzer.analyze (analytics.py 148-204).  The state
component of the result carries the mutations performed before any
raise: the empty-side ValueError fires before any mutation, while the
TypeError from round(None, 2) on a falsy spread_bps fires inside the
final metrics construction, after every state update. -/
noncomputable def microAnalyze (st : MState) (b : OrderBook) :
    Except MErr MicrostructureMetrics × MState :=
  if b.bids = [] ∨ b.asks = [] then (.error .valueError, st)
  else
    match b.spreadBps? with
    | none => (.error .typeError, microState2 st b)
    | some sbps => (.ok (microMetrics st b sbps), microState2 st b)

/-- MicrostructureAnalyzer.update_vpin (analytics.py 316-350). -/
def updateVpin (st : MState) (tradeVolume : ℚ) (isBuy : Bool) : Option ℚ × MState :=
  let st1 : MState :=
    if isBuy then { st with currentBucketBuys := st.currentBucketBuys + tradeVolume }
    else { st with currentBucketSells := st.currentBucketSells + tradeVolume }
  let st2 : MState := { st1 with currentBucketVolume := st1.currentBucketVolume + tradeVolume }
  let st3 : MState :=
    if st.vpinBucketSize ≤ st2.currentBucketVolume then
      let total := st2.currentBucketBuys + st2.currentBucketSells
      let imbs := if 0 < total then
          pushCap 50 st2.bucketImbalances (|st2.currentBucketBuys - st2.currentBucketSells| / total)
        else st2.bucketImbalances
      { st2 with
        currentBucketVolume := 0
        currentBucketBuys := 0
        currentBucketSells := 0
        bucketImbalances := imbs }
    else st2
  (if 10 ≤ st3.bucketImbalances.length then
     some (st3.bucketImbalances.sum / st3.bucketImbalances.length) else none, st3)

/-- AnomalySeverity (anomaly_detection.py 26-31). -/
inductive AnomalySeverity
  | LOW
  | MEDIUM
  | HIGH
  | CRITICAL
deriving DecidableEq, Repr

/-- AnomalyType (anomaly_detection.py 34-43). -/
inductive AnomalyType
  | SPOOFING
  | LAYERING
  | LIQUIDITY_GAP
  | HEAVY_IMBALANCE
  | SPREAD_SHOCK
  | QUOTE_STUFFING
  | MOMENTUM_IGNITION
  | WASH_TRADING
deriving DecidableEq, Repr

/-- MarketRegime (anomaly_detection.py 46-51). -/
inductive MarketRegime
  | CALM
  | STRESSED
  | EXECUTION_HOT
  | MANIPULATION_SUSPECTED
deriving DecidableEq, Repr

/-- Book side tag used in anomaly details. -/
inductive Side
  | BID
  | ASK
deriving DecidableEq, Repr

/-- Anomaly (anomaly_detection.py 54-73); message and timestamp omitted,
the side and 1-based level entries of the details mapping kept. -/
structure Anomaly where
  type : AnomalyType
  severity : AnomalySeverity
  riskScore : ℝ
  side : Option Side
  level : Option ℕ

/-- MarketState (anomaly_detection.py 76-93). -/
structure MarketState where
  regime : MarketRegime
  anomalies : List Anomaly
  overallRiskScore : ℝ
  spoofingRisk : ℚ
  liquidityScore : ℚ

/-- Instance state of AnomalyDetector (anomaly_detection.py 110-143):
configuration first, then the rolling statistics.  The order-timestamps
deque is written but never read by any detector and is omitted. -/
structure DState where
  spoofingVolumeThreshold : ℚ
  liquidityGapThreshold : ℚ
  imbalanceThreshold : ℚ
  spreadShockMultiplier : ℚ
  ewmaAlpha : ℚ
  avgSpread : ℚ
  avgSpreadSq : ℚ
  avgL1Volume : ℚ
  prevBook : Option OrderBook
  priceHistory : List ℚ
  spoofingEvents : ℕ
deriving DecidableEq, Repr

/-- The constructor of AnomalyDetector. -/
def initD (spoofTh liqTh imbTh shockTh alpha : ℚ) : DState :=
  ⟨spoofTh, liqTh, imbTh, shockTh, alpha, 0, 0, 100, none, [], 0⟩

/-- The constructor with its default arguments (5.0, 50.0, 0.7, 3.0, 0.05). -/
def defaultD : DState := initD 5 50 (7 / 10) 3 (1 / 20)

/-- AnomalyDetector.reset (anomaly_detection.py 418-426). -/
def resetD (st : DState) : DState :=
  { st with
    avgSpread := 0
    avgSpreadSq := 0
    avgL1Volume := 100
    prevBook := none
    priceHistory := []
    spoofingEvents := 0 }

/-- Python expression `book.spread or 0`: None and 0.0 both collapse to 0. -/
def spreadOr0 (b : OrderBook) : ℚ :=
  match b.spread? with
  | none => 0
  | some s => s

/-- _update_statistics (anomaly_detection.py 213-220); only reached with
non-empty sides. -/
def updateStats (st : DState) (b : OrderBook) : DState :=
  let spread := spreadOr0 b
  let l1 := (b.bids.headI.volume + b.asks.headI.volume) / 2
  { st with
    avgSpread := (1 - st.ewmaAlpha) * st.avgSpread + st.ewmaAlpha * spread,
    avgSpreadSq := (1 - st.ewmaAlpha) * st.avgSpreadSq + st.ewmaAlpha * spread ^ 2,
    avgL1Volume := (1 - st.ewmaAlpha) * st.avgL1Volume + st.ewmaAlpha * l1 }

/-- The spoofing threshold avg_l1_volume * spoofing_volume_threshold. -/
def spoofThr (st : DState) : ℚ := st.avgL1Volume * st.spoofingVolumeThreshold

/-- The scan order of the two nested loops of _detect_spoofing
(anomaly_detection.py 231-232): top-5 bid levels first, then top-5 ask
levels, each tagged with its side and 0-based index. -/
def spoofScan (b : OrderBook) : List (Side × ℕ × OrderBookLevel) :=
  ((b.bids.take 5).enum.map fun p => (Side.BID, p.1, p.2)) ++
  ((b.asks.take 5).enum.map fun p => (Side.ASK, p.1, p.2))

/-- Spoofing risk score min(100, (volume / threshold) * 50). -/
def spoofRiskScore (thr vol : ℚ) : ℚ := min 100 (vol / thr * 50)

/-- _detect_spoofing (anomaly_detection.py 222-252): the first scanned
level whose volume exceeds the threshold short-circuits and yields the
single anomaly; remaining levels go unchecked. -/
def detectSpoofing (st : DState) (b : OrderBook) : Option Anomaly :=
  ((spoofScan b).find? fun x => decide (spoofThr st < x.2.2.volume)).map fun x =>
    let risk := spoofRiskScore (spoofThr st) x.2.2.volume
    { type := .SPOOFING,
      severity := if 70 < risk then .HIGH else .MEDIUM,
      riskScore := (risk : ℝ), side := some x.1, level := some (x.2.1 + 1) }

/-- _detect_layering (anomaly_detection.py 254-284). -/
def detectLayering (st : DState) (b : OrderBook) : Option Anomaly :=
  let thr := st.avgL1Volume * 2
  let bidCount := (b.bids.take 5).countP fun l => decide (thr < l.volume)
  let askCount := (b.asks.take 5).countP fun l => decide (thr < l.volume)
  if 3 ≤ bidCount ∧ askCount + 2 < bidCount then
    let score := min 100 ((bidCount : ℚ) * 20)
    some { type := .LAYERING, severity := if 70 < score then .CRITICAL else .HIGH,
           riskScore := (score : ℝ), side := some .BID, level := none }
  else if 3 ≤ askCount ∧ bidCount + 2 < askCount then
    let score := min 100 ((askCount : ℚ) * 20)
    some { type := .LAYERING, severity := if 70 < score then .CRITICAL else .HIGH,
           riskScore := (score : ℝ), side := some .ASK, level := none }
  else none

/-- The scan order of _detect_liquidity_gaps (anomaly_detection.py
290-291): top-10 bid levels first, then top-10 ask levels. -/
def gapScan (b : OrderBook) : List (Side × ℕ × OrderBookLevel) :=
  ((b.bids.take 10).enum.map fun p => (Side.BID, p.1, p.2)) ++
  ((b.asks.take 10).enum.map fun p => (Side.ASK, p.1, p.2))

/-- _detect_liquidity_gaps (anomaly_detection.py 286-309); at most the
first five gaps are returned. -/
def detectLiquidityGaps (st : DState) (b : OrderBook) : List Anomaly :=
  (((gapScan b).filter fun x => decide (x.2.2.volume < st.liquidityGapThreshold)).map fun x =>
    { type := AnomalyType.LIQUIDITY_GAP,
      severity := if 3 < x.2.1 then AnomalySeverity.MEDIUM else AnomalySeverity.HIGH,
      riskScore := ((min 100 ((10 - (x.2.1 : ℚ)) * 15 +
        (st.liquidityGapThreshold - x.2.2.volume) * 2) : ℚ) : ℝ),
      side := some x.1, level := some (x.2.1 + 1) }).take 5

/-- _detect_heavy_imbalance (anomaly_detection.py 311-340). -/
def detectHeavyImbalance (st : DState) (b : OrderBook) : Option Anomaly :=
  let totalBid := ((b.bids.take 5).map (·.volume)).sum
  let totalAsk := ((b.asks.take 5).map (·.volume)).sum
  let total := totalBid + totalAsk
  if total < 1 / 10 ^ 9 then none
  else
    let imb := (totalBid - totalAsk) / total
    if st.imbalanceThreshold < |imb| then
      some { type := .HEAVY_IMBALANCE, severity := .HIGH,
             riskScore := ((min 100 (|imb| * 100) : ℚ) : ℝ),
             side := some (if 0 < imb then Side.BID else Side.ASK), level := none }
    else none

open Classical in
/-- _detect_spread_shock (anomaly_detection.py 342-368). -/
noncomputable def detectSpreadShock (st : DState) (b : OrderBook) : Option Anomaly :=
  let spread := spreadOr0 b
  let stdSpread := Real.sqrt (max 0 ((st.avgSpreadSq : ℝ) - (st.avgSpread : ℝ) ^ 2))
  if 0 < stdSpread then
    let z := ((spread : ℝ) - (st.avgSpread : ℝ)) / stdSpread
    if (st.spreadShockMultiplier : ℝ) < z then
      some { type := .SPREAD_SHOCK, severity := if 5 < z then .HIGH else .MEDIUM,
             riskScore := min 100 (z * 20), side := none, level := none }
    else none
  else none

/-- _calculate_spoofing_risk (anomaly_detection.py 370-380). -/
def calcSpoofingRisk (st : DState) (b : OrderBook) : ℚ :=
  let maxBid := if b.bids = [] then 0 else (((b.bids.take 5).map (·.volume)).max?).getD 0
  let maxAsk := if b.asks = [] then 0 else (((b.asks.take 5).map (·.volume)).max?).getD 0
  let maxVol := max maxBid maxAsk
  if 0 < st.avgL1Volume then
    let ratio := maxVol / st.avgL1Volume
    if 1 < ratio then min 100 ((ratio - 1) * 25) else 0
  else 0

/-- Python expression `book.spread_bps or 100`: None and 0.0 both
collapse to the default 100. -/
def orDefaultQ (x : Option ℚ) (d : ℚ) : ℚ :=
  match x with
  | none => d
  | some v => if v = 0 then d else v

/-- _calculate_liquidity_score (anomaly_detection.py 382-391). -/
def calcLiquidityScore (b : OrderBook) : ℚ :=
  let totalDepth := ((b.bids.take 5).map (·.volume)).sum + ((b.asks.take 5).map (·.volume)).sum
  let spreadBps := orDefaultQ b.spreadBps? 100
  min 50 (totalDepth / 100) + max 0 (50 - spreadBps)

/-- _calculate_overall_risk (anomaly_detection.py 393-400); the anomaly
contribution is divided by the fixed constant 5. -/
noncomputable def calcOverallRisk (anomalies : List Anomaly)
    (spoofingRisk liquidityScore : ℚ) : ℝ :=
  let baseRisk : ℚ := 100 - liquidityScore
  let anomalyRisk : ℝ := ((anomalies.map (·.riskScore)).sum) / 5
  min 100 ((baseRisk : ℝ) * (3 / 10) + anomalyRisk * (4 / 10) + (spoofingRisk : ℝ) * (3 / 10))

open Classical in
/-- _classify_regime (anomaly_detection.py 402-416). -/
noncomputable def classifyRegime (anomalies : List Anomaly) (overallRisk : ℝ) : MarketRegime :=
  let criticalCount := anomalies.countP fun a => decide (a.severity = .CRITICAL)
  let highCount := anomalies.countP fun a => decide (a.severity = .HIGH)
  if 2 ≤ criticalCount ∨ anomalies.any fun a => decide (a.type = .SPOOFING ∨ a.type = .LAYERING)
    then .MANIPULATION_SUSPECTED
  else if 70 < overallRisk ∨ 3 ≤ highCount then .STRESSED
  else if 40 < overallRisk then .EXECUTION_HOT
  else .CALM

/-- The mid-price used by the detector on a non-empty book. -/
def detMid (b : OrderBook) : ℚ := (b.bids.headI.price + b.asks.headI.price) / 2

/-- The detector state after the EWMA update and the truthiness-guarded
mid-price append (anomaly_detection.py 167-172). -/
def detPre (st : DState) (b : OrderBook) : DState :=
  let st1 := updateStats st b
  if detMid b = 0 then st1
  else { st1 with priceHistory := pushCap 50 st1.priceHistory (detMid b) }

/-- The detector state after the spoofing-events counter bump performed
inside _detect_spoofing on a hit (anomaly_detection.py 235). -/
def detState3 (st : DState) (b : OrderBook) : DState :=
  let st2 := detPre st b
  if (detectSpoofing st2 b).isSome then
    { st2 with spoofingEvents := st2.spoofingEvents + 1 }
  else st2

/-- The anomalies appended by one analyze call, in detector run order
(anomaly_detection.py 174-192): spoofing, layering, liquidity gaps,
heavy imbalance, spread shock.  The spoofing detector runs on the state
before its own counter bump; the bump does not feed any detector. -/
noncomputable def detAnomalies (st : DState) (b : OrderBook) : List Anomaly :=
  (detectSpoofing (detPre st b) b).toList ++ (detectLayering (detState3 st b) b).toList ++
  detectLiquidityGaps (detState3 st b) b ++ (detectHeavyImbalance (detState3 st b) b).toList ++
  (detectSpreadShock (detState3 st b) b).toList

/-- The neutral MarketState returned on an empty side. -/
def neutralMarketState : MarketState :=
  { regime := .CALM, anomalies := [], overallRiskScore := 0,
    spoofingRisk := 0, liquidityScore := 100 }

/-- AnomalyDetector.analyze (anomaly_detection.py 145-211).  An empty
side early-exits with a neutral MarketState and an untouched state. -/
noncomputable def detAnalyze (st : DState) (b : OrderBook) : MarketState × DState :=
  if b.bids = [] ∨ b.asks = [] then (neutralMarketState, st)
  else
    let anomalies := detAnomalies st b
    let spoofingRisk := calcSpoofingRisk (detState3 st b) b
    let liquidityScore := calcLiquidityScore b
    let overallRisk := calcOverallRisk anomalies spoofingRisk liquidityScore
    ({ regime := classifyRegime anomalies overallRisk
       anomalies := anomalies
       overallRiskScore := overallRisk
       spoofingRisk := spoofingRisk
       liquidityScore := liquidityScore },
     { detState3 st b with prevBook := some b })

/-- An input to a MicrostructureAnalyzer instance: an order-book
snapshot for analyze, or a trade print for update_vpin. -/
inductive MInput
  | snap (b : OrderBook)
  | trade (volume : ℚ) (isBuy : Bool)

/-- One output of a MicrostructureAnalyzer entry point. -/
inductive MOut
  | metrics (r : Except MErr MicrostructureMetrics)
  | vpin (v : Option ℚ)

/-- One call to either MicrostructureAnalyzer entry point. -/
noncomputable def stepM : MState → MInput → MOut × MState
  | st, .snap b => ((.metrics (microAnalyze st b).1), (microAnalyze st b).2)
  | st, .trade v isBuy => ((.vpin (updateVpin st v isBuy).1), (updateVpin st v isBuy).2)

/-- The call-by-call outputs of an input sequence on one analyzer. -/
noncomputable def runM : MState → List MInput → List MOut
  | _, [] => []
  | st, x :: xs => (stepM st x).1 :: runM (stepM st x).2 xs

/-- The call-by-call outputs of a book sequence on one detector. -/
noncomputable def runD : DState → List OrderBook → List MarketState
  | _, [] => []
  | st, b :: bs => (detAnalyze st b).1 :: runD (detAnalyze st b).2 bs

/-- The detector state after a sequence of analyze calls. -/
noncomputable def runDState (st : DState) (bs : List OrderBook) : DState :=
  bs.foldl (fun s b => (detAnalyze s b).2) st

/-- The analyzer state after a sequence of analyze calls. -/
noncomputable def runMState (st : MState) (bs : List OrderBook) : MState :=
  bs.foldl (fun s b => (microAnalyze s b).2) st

/-- A raw numeric-ish value of a snapshot handed to the validator: a
finite number, NaN, or an infinity.  Other Python value shapes (strings,
None, nested containers) are outside the scope of the claims. -/
inductive RawVal
  | num (q : ℚ)
  | nan
  | inf
deriving DecidableEq, Repr

/-- A raw order-book level: an arbitrary-length list of values. -/
abbrev RawLevel := List RawVal

/-- A raw snapshot that does contain bids and asks lists, plus the
optional mid_price entry the validator also inspects. -/
structure RawSnapshot where
  bids : List RawLevel
  asks : List RawLevel
  midPrice : Option RawVal
deriving DecidableEq, Repr

/-- DataValidator._is_valid_number (data_validator.py 130-143) on the
modelled value shapes. -/
def isValidNumber : RawVal → Bool
  | .num _ => true
  | .nan => false
  | .inf => false

/-- The validation errors validate_snapshot can record. -/
inductive VErr
  | bidsEmpty
  | asksEmpty
  | levelStructure (side : Side) (i : ℕ)
  | levelPrice (side : Side) (i : ℕ)
  | levelVolume (side : Side) (i : ℕ)
  | crossedBook
  | negativeSpread
  | badMidPrice
deriving DecidableEq, Repr

/-- The price check of _validate_levels (data_validator.py 122): the
price fails when it is not a valid number or is non-positive. -/
def priceBad (v : RawVal) : Bool :=
  match v with
  | .num p => decide (p ≤ 0)
  | _ => true

/-- The volume check of _validate_levels (data_validator.py 125): the
volume fails when it is not a valid number or is negative. -/
def volumeBad (v : RawVal) : Bool :=
  match v with
  | .num q => decide (q < 0)
  | _ => true

/-- The errors recorded for one level by _validate_levels
(data_validator.py 115-126): a structure error for a level with fewer
than two entries, else a price error and a volume error as applicable. -/
def levelErrs (side : Side) (i : ℕ) (lv : RawLevel) : List VErr :=
  if lv.length < 2 then [.levelStructure side i]
  else
    (if priceBad (lv.getD 0 (.num 0)) then [.levelPrice side i] else []) ++
    (if volumeBad (lv.getD 1 (.num 0)) then [.levelVolume side i] else [])

/-- The enumerate loop of _validate_levels: visit each level with its
0-based index, collecting errors. -/
def validateLevelsAux (side : Side) : ℕ → List RawLevel → List VErr
  | _, [] => []
  | i, lv :: rest => levelErrs side i lv ++ validateLevelsAux side (i + 1) rest

/-- DataValidator._validate_levels (data_validator.py 110-128): only the
first max_check = 10 levels are inspected. -/
def validateLevels (side : Side) (levels : List RawLevel) : List VErr :=
  validateLevelsAux side 0 (levels.take 10)

/-- Result of a validation check (ValidationResult, data_validator.py
13-21); the warnings list never affects validity and is omitted. -/
structure ValidationResult where
  isValid : Bool
  errors : List VErr
deriving DecidableEq, Repr

/-- DataValidator.validate_snapshot (data_validator.py 38-108) on a
snapshot that contains bids and asks lists.  The crossed-book block only
runs when no error was recorded so far, so the level-0 indexing inside
it can never hit an empty level and the getD defaults are unreachable. -/
def validateSnapshot (s : RawSnapshot) : ValidationResult :=
  let bidErrs := if s.bids = [] then [VErr.bidsEmpty] else validateLevels .BID s.bids
  let askErrs := if s.asks = [] then [VErr.asksEmpty] else validateLevels .ASK s.asks
  let errs1 := bidErrs ++ askErrs
  let crossErrs :=
    if errs1 = [] ∧ s.bids ≠ [] ∧ s.asks ≠ [] then
      match (s.bids.headI).getD 0 (.num 0), (s.asks.headI).getD 0 (.num 0) with
      | .num bb, .num ba =>
        (if ba ≤ bb then [VErr.crossedBook] else []) ++
        (if ba - bb < 0 then [VErr.negativeSpread] else [])
      | _, _ => []
    else []
  let midErrs :=
    match s.midPrice with
    | none => []
    | some (.num m) => if m ≤ 0 then [VErr.badMidPrice] else []
    | some _ => [VErr.badMidPrice]
  let errs := errs1 ++ crossErrs ++ midErrs
  { isValid := decide (errs = []), errors := errs }

/-- A defective level: fewer than two entries, or a price that is not a
positive finite number, or a volume that is not a non-negative finite
number. -/
def BadLevel (lv : RawLevel) : Prop :=
  lv.length < 2 ∨ priceBad (lv.getD 0 (.num 0)) = true ∨ volumeBad (lv.getD 1 (.num 0)) = true

instance : DecidablePred BadLevel := fun lv => by
  unfold BadLevel
  infer_instance

open Classical in
/-- Regime classification exactly as the spec words it (priority order,
first match wins), stated over the anomaly list and the overall risk of
one call. -/
noncomputable def classifyRegimeSpec (anomalies : List Anomaly) (overallRisk : ℝ) :
    MarketRegime :=
  if 2 ≤ (anomalies.filter fun a => decide (a.severity = .CRITICAL)).length ∨
      ∃ a ∈ anomalies, a.type = .SPOOFING ∨ a.type = .LAYERING then
    .MANIPULATION_SUSPECTED
  else if 70 < overallRisk ∨ 3 ≤ (anomalies.filter fun a => decide (a.severity = .HIGH)).length then
    .STRESSED
  else if 40 < overallRisk then .EXECUTION_HOT
  else .CALM

/-- Log returns of consecutive prices, as the spec describes them. -/
noncomputable def specLogReturns (l : List ℚ) : List ℝ :=
  (l.zip l.tail).map fun pq => Real.log ((pq.2 : ℝ) / (pq.1 : ℝ))

/-- Population standard deviation, as the spec describes volatility. -/
noncomputable def popStdDev (rs : List ℝ) : ℝ :=
  let n : ℝ := rs.length
  let mean := rs.sum / n
  Real.sqrt (((rs.map fun r => (r - mean) ^ 2).sum) / n)

/-- A raw level holding the finite price p and volume v. -/
def rawLevel (p v : ℚ) : RawLevel := [.num p, .num v]

/-- Eleven bid levels: the first ten valid, the eleventh with a negative
price that _validate_levels never reaches (max_check = 10). -/
def elevenBids : List RawLevel :=
  [rawLevel 100 10, rawLevel 99 10, rawLevel 98 10, rawLevel 97 10, rawLevel 96 10,
   rawLevel 95 10, rawLevel 94 10, rawLevel 93 10, rawLevel 92 10, rawLevel 91 10,
   rawLevel (-1) 1]

/-- A raw snapshot whose eleventh bid level is invalid. -/
def elevenSnap : RawSnapshot := ⟨elevenBids, [rawLevel 101 5], none⟩

/-- A fixed valid book used for the constant-price volatility run. -/
def constBook : OrderBook := ⟨[⟨100, 10⟩], [⟨101, 10⟩]⟩

/-- The default analyzer state after nineteen analyze calls on
constBook. -/
noncomputable def constState19 : MState := runMState defaultM (List.replicate 19 constBook)

/-- One side of the book dominates the other, level by level, over the
compared OBI levels. -/
def HeavierAt (s : Side) (b : OrderBook) (i : ℕ) : Prop :=
  match s with
  | .BID => askVolAt b i ≤ bidVolAt b i
  | .ASK => bidVolAt b i ≤ askVolAt b i

instance : ∀ s b i, Decidable (HeavierAt s b i) := fun s b i =>
  match s with
  | .BID => inferInstanceAs (Decidable (askVolAt b i ≤ bidVolAt b i))
  | .ASK => inferInstanceAs (Decidable (bidVolAt b i ≤ askVolAt b i))

/-- Strict dominance of one side at one compared level. -/
def StrictlyHeavierAt (s : Side) (b : OrderBook) (i : ℕ) : Prop :=
  match s with
  | .BID => askVolAt b i < bidVolAt b i
  | .ASK => bidVolAt b i < askVolAt b i

instance : ∀ s b i, Decidable (StrictlyHeavierAt s b i) := fun s b i =>
  match s with
  | .BID => inferInstanceAs (Decidable (askVolAt b i < bidVolAt b i))
  | .ASK => inferInstanceAs (Decidable (bidVolAt b i < askVolAt b i))

/-- The OBI sign the claim predicts for a dominating side. -/
def ObiSign (s : Side) (x : ℝ) : Prop :=
  match s with
  | .BID => 0 < x
  | .ASK => x < 0

/-- The sign of the rounded obi field for a dominating side. -/
def ObiSignWeak (s : Side) (x : ℝ) : Prop :=
  match s with
  | .BID => 0 ≤ x
  | .ASK => x ≤ 0

/- ==================================================================
   Helper lemmas
   ================================================================== -/

theorem mem_pushCap {cap : ℕ} (hcap : 1 ≤ cap) (l : List ℚ) (x : ℚ) :
    x ∈ pushCap cap l x := by
  unfold pushCap
  have h : (l ++ [x]).length - cap ≤ l.length := by
    simp only [List.length_append, List.length_singleton]
    omega
  rw [List.drop_append_of_le_length h]
  exact List.mem_append_right _ (List.mem_singleton_self x)

theorem round_le_int {α : Type} [LinearOrderedField α] [FloorRing α] {x : α} {z : ℤ}
    (h : x ≤ (z : α)) : round x ≤ z := by
  rw [round_eq]
  have hf : ⌊x + 1 / 2⌋ < z + 1 := by
    refine Int.floor_lt.mpr ?_
    push_cast
    linarith
  omega

theorem int_le_round {α : Type} [LinearOrderedField α] [FloorRing α] {x : α} {z : ℤ}
    (h : (z : α) ≤ x) : z ≤ round x := by
  rw [round_eq]
  refine Int.le_floor.mpr ?_
  linarith

theorem roundQ_le_one {n : ℕ} {x : ℚ} (h : x ≤ 1) : roundQ n x ≤ 1 := by
  unfold roundQ
  rw [div_le_one (by positivity)]
  have h10 : (0 : ℚ) ≤ 10 ^ n := by positivity
  have hr : round (x * 10 ^ n) ≤ ((10 : ℤ) ^ n : ℤ) := by
    refine round_le_int ?_
    push_cast
    nlinarith
  exact_mod_cast hr

theorem neg_one_le_roundQ {n : ℕ} {x : ℚ} (h : -1 ≤ x) : -1 ≤ roundQ n x := by
  unfold roundQ
  rw [le_div_iff₀ (by positivity)]
  have h10 : (0 : ℚ) ≤ 10 ^ n := by positivity
  have hr : (-((10 : ℤ) ^ n) : ℤ) ≤ round (x * 10 ^ n) := by
    refine int_le_round ?_
    push_cast
    nlinarith
  have hr2 : ((-((10 : ℤ) ^ n) : ℤ) : ℚ) ≤ ((round (x * 10 ^ n) : ℤ) : ℚ) := Int.cast_le.mpr hr
  push_cast at hr2
  linarith

theorem roundQ_zero (n : ℕ) : roundQ n 0 = 0 := by
  unfold roundQ
  rw [zero_mul, round_zero]
  simp

theorem normalizeOfi_bounds {raw : ℚ} {hist : List ℚ} (hmem : |raw| ∈ hist) :
    -1 ≤ normalizeOfi raw hist ∧ normalizeOfi raw hist ≤ 1 ∧
      (hist.maximum.unbot' 1 = 0 → normalizeOfi raw hist = 0) := by
  have hne : hist ≠ [] := List.ne_nil_of_mem hmem
  have hle : (↑|raw| : WithBot ℚ) ≤ hist.maximum := List.le_maximum_of_mem' hmem
  unfold normalizeOfi
  rw [if_neg hne]
  cases hmax : hist.maximum with
  | bot =>
    rw [hmax] at hle
    exact absurd hle (WithBot.not_coe_le_bot _)
  | coe m =>
    rw [hmax] at hle
    have hm : |raw| ≤ m := by exact_mod_cast hle
    simp only [WithBot.unbot'_coe]
    by_cases hpos : 0 < m
    · rw [if_pos hpos]
      refine ⟨le_max_left _ _, max_le (by norm_num) (min_le_left _ _), ?_⟩
      intro h0
      rw [h0] at hpos
      exact absurd hpos (lt_irrefl 0)
    · rw [if_neg hpos]
      have hz : raw = 0 := by
        have habs : |raw| ≤ 0 := le_trans hm (not_lt.mp hpos)
        exact abs_eq_zero.mp (le_antisymm habs (abs_nonneg raw))
      exact ⟨by rw [hz]; norm_num, by rw [hz]; norm_num, fun _ => hz⟩

theorem valid_book_facts {b : OrderBook} (h : b.Valid) :
    0 < b.bids.headI.price ∧ 0 < b.asks.headI.price ∧
    0 ≤ b.bids.headI.volume ∧ 0 ≤ b.asks.headI.volume ∧
    b.bids.headI.price < b.asks.headI.price := by
  obtain ⟨hb, ha, hlv, hcross⟩ := h
  obtain ⟨x, xs, hx⟩ := List.exists_cons_of_ne_nil hb
  obtain ⟨y, ys, hy⟩ := List.exists_cons_of_ne_nil ha
  have hxm := hlv x (by rw [hx]; exact List.mem_append_left _ (List.mem_cons_self x xs))
  have hym := hlv y (by rw [hy]; exact List.mem_append_right _ (List.mem_cons_self y ys))
  rw [hx, hy] at hcross ⊢
  simp only [List.headI] at hcross ⊢
  exact ⟨hxm.1, hym.1, hxm.2, hym.2, hcross⟩

theorem spreadBps?_of_valid {b : OrderBook} (h : b.Valid) :
    b.spreadBps? = some (microSpread b / microMid b * 10000) := by
  obtain ⟨hb, ha, hlv, hcross⟩ := h
  obtain ⟨x, xs, hx⟩ := List.exists_cons_of_ne_nil hb
  obtain ⟨y, ys, hy⟩ := List.exists_cons_of_ne_nil ha
  have hxp : 0 < x.price :=
    (hlv x (by rw [hx]; exact List.mem_append_left _ (List.mem_cons_self x xs))).1
  have hyp : 0 < y.price :=
    (hlv y (by rw [hy]; exact List.mem_append_right _ (List.mem_cons_self y ys))).1
  have hs : x.price < y.price := by
    rw [hx, hy] at hcross
    simpa using hcross
  unfold OrderBook.spreadBps? OrderBook.spread? OrderBook.midPrice? microSpread microMid
  rw [hx, hy]
  simp only [List.head?_cons, List.headI]
  have hcond : ¬(y.price - x.price = 0 ∨ (x.price + y.price) / 2 = 0) := by
    push_neg
    constructor
    · exact sub_ne_zero.mpr (ne_of_gt hs)
    · exact ne_of_gt (by linarith)
  rw [if_neg hcond]

theorem not_empty_sides_of_valid {b : OrderBook} (h : b.Valid) :
    ¬(b.bids = [] ∨ b.asks = []) := by
  push_neg
  exact ⟨h.1, h.2.1⟩

theorem microAnalyze_of_valid (st : MState) {b : OrderBook} (hb : b.Valid) :
    microAnalyze st b =
      (.ok (microMetrics st b (microSpread b / microMid b * 10000)), microState2 st b) := by
  unfold microAnalyze
  rw [if_neg (not_empty_sides_of_valid hb), spreadBps?_of_valid hb]

/- ==================================================================
   Claim theorems
   ================================================================== -/

/-- C2: on every book satisfying the data-model invariants, analyze
succeeds and the ofi field of the returned metrics lies between -1 and
1; the absolute raw OFI is pushed into the bounded history before
normalisation, and a zero history maximum yields OFI 0.  The history
capacity must be at least 1 (default 50); a zero-capacity window would
leave the history empty and skip normalisation. -/
theorem claim_C2_ofi_normalization (st : MState) (b : OrderBook)
    (hw : 1 ≤ st.ofiWindow) (hb : b.Valid) :
    ∃ m, (microAnalyze st b).1 = .ok m ∧ -1 ≤ m.ofi ∧ m.ofi ≤ 1 ∧
      (microAnalyze st b).2.ofiHistory =
        pushCap st.ofiWindow st.ofiHistory |rawOfi st b.bids.headI b.asks.headI| ∧
      ((microAnalyze st b).2.ofiHistory.maximum.unbot' 1 = 0 → m.ofi = 0) := by
  rw [microAnalyze_of_valid st hb]
  have hmem : |rawOfi st b.bids.headI b.asks.headI| ∈
      pushCap st.ofiWindow st.ofiHistory |rawOfi st b.bids.headI b.asks.headI| :=
    mem_pushCap hw _ _
  have hn := normalizeOfi_bounds hmem
  refine ⟨_, rfl, ?_, ?_, rfl, ?_⟩
  · exact neg_one_le_roundQ hn.1
  · exact roundQ_le_one hn.2.1
  · intro h0
    have := hn.2.2 h0
    show roundQ 4 (normalizeOfi _ _) = 0
    rw [this, roundQ_zero]

/-- C2 witness: a concrete valid book on the default analyzer. -/
theorem claim_C2_witness :
    1 ≤ defaultM.ofiWindow ∧ (⟨[⟨100, 10⟩], [⟨101, 5⟩]⟩ : OrderBook).Valid ∧
    (∃ m, (microAnalyze defaultM ⟨[⟨100, 10⟩], [⟨101, 5⟩]⟩).1 = .ok m ∧
      -1 ≤ m.ofi ∧ m.ofi ≤ 1 ∧
      (microAnalyze defaultM ⟨[⟨100, 10⟩], [⟨101, 5⟩]⟩).2.ofiHistory =
        pushCap defaultM.ofiWindow defaultM.ofiHistory
          |rawOfi defaultM (⟨[⟨100, 10⟩], [⟨101, 5⟩]⟩ : OrderBook).bids.headI
            (⟨[⟨100, 10⟩], [⟨101, 5⟩]⟩ : OrderBook).asks.headI| ∧
      ((microAnalyze defaultM ⟨[⟨100, 10⟩], [⟨101, 5⟩]⟩).2.ofiHistory.maximum.unbot' 1 = 0 →
        m.ofi = 0)) :=
  ⟨by decide, by decide,
    claim_C2_ofi_normalization defaultM ⟨[⟨100, 10⟩], [⟨101, 5⟩]⟩ (by decide) (by decide)⟩

/-- C8: on a book with an empty bid side or an empty ask side, the
detector returns the neutral MarketState (regime Calm, no anomalies,
overall risk 0, spoofing risk 0, liquidity score 100) and leaves its
state completely unchanged, while the microstructure analyzer raises
ValueError on the same input without mutating its own state. -/
theorem claim_C8_graceful_degradation (dst : DState) (mst : MState) (b : OrderBook)
    (h : b.bids = [] ∨ b.asks = []) :
    detAnalyze dst b = (neutralMarketState, dst) ∧
    neutralMarketState.regime = .CALM ∧ neutralMarketState.anomalies = [] ∧
    neutralMarketState.overallRiskScore = 0 ∧ neutralMarketState.spoofingRisk = 0 ∧
    neutralMarketState.liquidityScore = 100 ∧
    microAnalyze mst b = (.error .valueError, mst) := by
  refine ⟨?_, rfl, rfl, rfl, rfl, rfl, ?_⟩
  · unfold detAnalyze
    rw [if_pos h]
  · unfold microAnalyze
    rw [if_pos h]

/-- C8 witness: a concrete empty-bid book. -/
theorem claim_C8_witness :
    ((⟨[], [⟨1, 1⟩]⟩ : OrderBook).bids = [] ∨ (⟨[], [⟨1, 1⟩]⟩ : OrderBook).asks = []) ∧
    (detAnalyze defaultD ⟨[], [⟨1, 1⟩]⟩ = (neutralMarketState, defaultD) ∧
      neutralMarketState.regime = .CALM ∧ neutralMarketState.anomalies = [] ∧
      neutralMarketState.overallRiskScore = 0 ∧ neutralMarketState.spoofingRisk = 0 ∧
      neutralMarketState.liquidityScore = 100 ∧
      microAnalyze defaultM ⟨[], [⟨1, 1⟩]⟩ = (.error .valueError, defaultM)) :=
  ⟨Or.inl rfl, claim_C8_graceful_degradation defaultD defaultM ⟨[], [⟨1, 1⟩]⟩ (Or.inl rfl)⟩

theorem resetM_eq_initM (st : MState) :
    resetM st = initM st.ofiWindow st.priceHistorySize st.vpinBucketSize st.decayFactor := by
  cases st
  rfl

theorem resetD_eq_initD (st : DState) :
    resetD st = initD st.spoofingVolumeThreshold st.liquidityGapThreshold
      st.imbalanceThreshold st.spreadShockMultiplier st.ewmaAlpha := by
  cases st
  rfl

/-- C9: after reset, both engines produce, call by call, exactly the
outputs a brand-new instance with the same configuration would produce
on the same input sequence (for the analyzer the sequence may mix
analyze and update_vpin calls), and reset leaves every configuration
field untouched. -/
theorem claim_C9_reset_equivalence (ms : MState) (ds : DState)
    (xs : List MInput) (bs : List OrderBook) :
    runM (resetM ms) xs =
      runM (initM ms.ofiWindow ms.priceHistorySize ms.vpinBucketSize ms.decayFactor) xs ∧
    runD (resetD ds) bs =
      runD (initD ds.spoofingVolumeThreshold ds.liquidityGapThreshold
        ds.imbalanceThreshold ds.spreadShockMultiplier ds.ewmaAlpha) bs ∧
    (resetM ms).ofiWindow = ms.ofiWindow ∧
    (resetM ms).priceHistorySize = ms.priceHistorySize ∧
    (resetM ms).vpinBucketSize = ms.vpinBucketSize ∧
    (resetM ms).decayFactor = ms.decayFactor ∧
    (resetD ds).spoofingVolumeThreshold = ds.spoofingVolumeThreshold ∧
    (resetD ds).liquidityGapThreshold = ds.liquidityGapThreshold ∧
    (resetD ds).imbalanceThreshold = ds.imbalanceThreshold ∧
    (resetD ds).spreadShockMultiplier = ds.spreadShockMultiplier ∧
    (resetD ds).ewmaAlpha = ds.ewmaAlpha := by
  rw [resetM_eq_initM, resetD_eq_initD]
  exact ⟨rfl, rfl, rfl, rfl, rfl, rfl, rfl, rfl, rfl, rfl, rfl⟩

/-- C5 (code bug): on the zero-spread book with bids at 100 and asks at
100, analyze raises TypeError: the spread_bps property returns None
under its truthiness guard and round(None, 2) fails, despite the
explicit zero-spread tick fallback earlier in the same function.  The
zero-volume edge case is handled as claimed: the microprice of a
zero-volume top of book falls back to the simple mid-price. -/
theorem claim_C5_zero_spread_raises :
    (microAnalyze defaultM ⟨[⟨100, 10⟩], [⟨100, 5⟩]⟩).1 = .error .typeError ∧
    calcMicroprice ⟨100, 0⟩ ⟨101, 0⟩ = (100 + 101) / 2 := by
  constructor
  · unfold microAnalyze
    rw [if_neg (by simp)]
    have hz : (⟨[⟨100, 10⟩], [⟨100, 5⟩]⟩ : OrderBook).spreadBps? = none := by
      unfold OrderBook.spreadBps? OrderBook.spread? OrderBook.midPrice?
      simp only [List.head?_cons]
      rw [if_pos]
      norm_num
    rw [hz]
  · unfold calcMicroprice
    norm_num

theorem detAnalyze_of_nonempty (st : DState) {b : OrderBook}
    (hb : b.bids ≠ []) (ha : b.asks ≠ []) :
    detAnalyze st b =
      ({ regime := classifyRegime (detAnomalies st b)
           (calcOverallRisk (detAnomalies st b) (calcSpoofingRisk (detState3 st b) b)
             (calcLiquidityScore b))
         anomalies := detAnomalies st b
         overallRiskScore := calcOverallRisk (detAnomalies st b)
           (calcSpoofingRisk (detState3 st b) b) (calcLiquidityScore b)
         spoofingRisk := calcSpoofingRisk (detState3 st b) b
         liquidityScore := calcLiquidityScore b },
       { detState3 st b with prevBook := some b }) := by
  unfold detAnalyze
  rw [if_neg (by push_neg; exact ⟨hb, ha⟩)]

theorem classifyRegime_eq_spec (l : List Anomaly) (risk : ℝ) :
    classifyRegime l risk = classifyRegimeSpec l risk := by
  unfold classifyRegime classifyRegimeSpec
  simp only [List.countP_eq_length_filter, List.any_eq_true, decide_eq_true_eq]

/-- C1: on every book with non-empty sides, the regime of the returned
MarketState equals the priority-ordered rule of the spec evaluated on
that same call's anomaly list and overall risk; in particular two or
more CRITICAL anomalies, or any SPOOFING or LAYERING anomaly, force the
regime Manipulation Suspected regardless of the overall risk value. -/
theorem claim_C1_regime_classification (st : DState) (b : OrderBook)
    (hb : b.bids ≠ []) (ha : b.asks ≠ []) :
    (detAnalyze st b).1.regime =
      classifyRegimeSpec (detAnalyze st b).1.anomalies (detAnalyze st b).1.overallRiskScore ∧
    ((2 ≤ ((detAnalyze st b).1.anomalies.filter fun a =>
        decide (a.severity = .CRITICAL)).length ∨
      ∃ a ∈ (detAnalyze st b).1.anomalies, a.type = .SPOOFING ∨ a.type = .LAYERING) →
      (detAnalyze st b).1.regime = .MANIPULATION_SUSPECTED) := by
  rw [detAnalyze_of_nonempty st hb ha]
  refine ⟨classifyRegime_eq_spec _ _, ?_⟩
  intro hcond
  show classifyRegime _ _ = _
  rw [classifyRegime_eq_spec]
  unfold classifyRegimeSpec
  rw [if_pos hcond]

/-- C1 witness: a concrete book with non-empty sides. -/
theorem claim_C1_witness :
    ((⟨[⟨100, 10⟩], [⟨101, 5⟩]⟩ : OrderBook).bids ≠ []) ∧
    ((⟨[⟨100, 10⟩], [⟨101, 5⟩]⟩ : OrderBook).asks ≠ []) ∧
    ((detAnalyze defaultD ⟨[⟨100, 10⟩], [⟨101, 5⟩]⟩).1.regime =
      classifyRegimeSpec (detAnalyze defaultD ⟨[⟨100, 10⟩], [⟨101, 5⟩]⟩).1.anomalies
        (detAnalyze defaultD ⟨[⟨100, 10⟩], [⟨101, 5⟩]⟩).1.overallRiskScore ∧
    ((2 ≤ ((detAnalyze defaultD ⟨[⟨100, 10⟩], [⟨101, 5⟩]⟩).1.anomalies.filter fun a =>
        decide (a.severity = .CRITICAL)).length ∨
      ∃ a ∈ (detAnalyze defaultD ⟨[⟨100, 10⟩], [⟨101, 5⟩]⟩).1.anomalies,
        a.type = .SPOOFING ∨ a.type = .LAYERING) →
      (detAnalyze defaultD ⟨[⟨100, 10⟩], [⟨101, 5⟩]⟩).1.regime = .MANIPULATION_SUSPECTED)) :=
  ⟨by decide, by decide,
    claim_C1_regime_classification defaultD ⟨[⟨100, 10⟩], [⟨101, 5⟩]⟩ (by decide) (by decide)⟩

theorem detectSpoofing_type {st : DState} {b : OrderBook} {a : Anomaly}
    (h : a ∈ (detectSpoofing st b).toList) : a.type = .SPOOFING := by
  unfold detectSpoofing at h
  cases hf : (spoofScan b).find? fun x => decide (spoofThr st < x.2.2.volume) with
  | none =>
    rw [hf] at h
    simp at h
  | some x =>
    rw [hf] at h
    simp only [Option.map_some', Option.toList_some, List.mem_singleton] at h
    rw [h]

theorem detectLayering_type {st : DState} {b : OrderBook} {a : Anomaly}
    (h : a ∈ (detectLayering st b).toList) : a.type = .LAYERING := by
  simp only [detectLayering] at h
  split_ifs at h <;>
    simp only [Option.toList_some, Option.toList_none, List.mem_singleton,
      List.not_mem_nil] at h <;>
    rw [h]

theorem detectLiquidityGaps_type {st : DState} {b : OrderBook} {a : Anomaly}
    (h : a ∈ detectLiquidityGaps st b) : a.type = .LIQUIDITY_GAP := by
  unfold detectLiquidityGaps at h
  have h2 := List.mem_of_mem_take h
  obtain ⟨x, hx, rfl⟩ := List.mem_map.mp h2
  rfl

theorem detectHeavyImbalance_type {st : DState} {b : OrderBook} {a : Anomaly}
    (h : a ∈ (detectHeavyImbalance st b).toList) : a.type = .HEAVY_IMBALANCE := by
  simp only [detectHeavyImbalance] at h
  split_ifs at h <;>
    simp only [Option.toList_some, Option.toList_none, List.mem_singleton,
      List.not_mem_nil] at h <;>
    rw [h]

theorem detectSpreadShock_type {st : DState} {b : OrderBook} {a : Anomaly}
    (h : a ∈ (detectSpreadShock st b).toList) : a.type = .SPREAD_SHOCK := by
  simp only [detectSpreadShock] at h
  split_ifs at h <;>
    simp only [Option.toList_some, Option.toList_none, List.mem_singleton,
      List.not_mem_nil] at h <;>
    rw [h]

theorem filter_spoof_anomalies (st : DState) (b : OrderBook) :
    ((detAnomalies st b).filter fun a => decide (a.type = .SPOOFING)) =
      (detectSpoofing (detPre st b) b).toList := by
  unfold detAnomalies
  rw [List.filter_append, List.filter_append, List.filter_append, List.filter_append]
  rw [List.filter_eq_self.mpr (fun a h => by simp [detectSpoofing_type h])]
  rw [List.filter_eq_nil_iff.mpr (fun a h => by simp [detectLayering_type h])]
  rw [List.filter_eq_nil_iff.mpr (fun a h => by simp [detectLiquidityGaps_type h])]
  rw [List.filter_eq_nil_iff.mpr (fun a h => by simp [detectHeavyImbalance_type h])]
  rw [List.filter_eq_nil_iff.mpr (fun a h => by simp [detectSpreadShock_type h])]
  simp

theorem spoofThr_detPre (st : DState) (b : OrderBook) :
    spoofThr (detPre st b) = spoofThr (updateStats st b) := by
  unfold spoofThr detPre
  by_cases h : detMid b = 0 <;> simp [h]

/-- C3: on every analyze call at most one SPOOFING anomaly is produced;
when some level among the top five per side (bid side scanned first)
exceeds avg_l1_volume * spoofing_volume_threshold, the first such level
in scan order yields the single SPOOFING anomaly, with risk score
min(100, (volume / threshold) * 50), severity HIGH when that score
exceeds 70 and MEDIUM otherwise, and the risk score is positive whenever
the threshold is positive (as after any warm-up). -/
theorem claim_C3_spoofing_first_match (st : DState) (b : OrderBook)
    (hb : b.bids ≠ []) (ha : b.asks ≠ []) :
    (((detAnalyze st b).1.anomalies.filter fun a =>
        decide (a.type = .SPOOFING)).length ≤ 1) ∧
    (∀ s i lv, (spoofScan b).find?
        (fun x => decide (spoofThr (updateStats st b) < x.2.2.volume)) = some (s, i, lv) →
      ((detAnalyze st b).1.anomalies.filter fun a => decide (a.type = .SPOOFING)) =
        [{ type := .SPOOFING,
           severity := if 70 < spoofRiskScore (spoofThr (updateStats st b)) lv.volume
             then .HIGH else .MEDIUM,
           riskScore := (spoofRiskScore (spoofThr (updateStats st b)) lv.volume : ℝ),
           side := some s, level := some (i + 1) }] ∧
      (0 < spoofThr (updateStats st b) →
        0 < spoofRiskScore (spoofThr (updateStats st b)) lv.volume)) := by
  rw [detAnalyze_of_nonempty st hb ha]
  show ((detAnomalies st b).filter _).length ≤ 1 ∧ _
  rw [filter_spoof_anomalies]
  constructor
  · cases detectSpoofing (detPre st b) b <;> simp
  · intro s i lv hfind
    have hpred := List.find?_some hfind
    simp only [decide_eq_true_eq] at hpred
    constructor
    · unfold detectSpoofing
      rw [spoofThr_detPre, hfind]
      rfl
    · intro hthr
      have hv : spoofThr (updateStats st b) < lv.volume := hpred
      unfold spoofRiskScore
      have h1 : (1 : ℚ) < lv.volume / spoofThr (updateStats st b) :=
        (one_lt_div hthr).mpr hv
      have h50 : (50 : ℚ) < lv.volume / spoofThr (updateStats st b) * 50 := by nlinarith
      rw [lt_min_iff]
      constructor
      · norm_num
      · linarith

/-- C3 witness: a concrete book whose first bid level exceeds five times
the updated average L1 volume on the default detector. -/
theorem claim_C3_witness :
    ((⟨[⟨100, 1000⟩], [⟨101, 10⟩]⟩ : OrderBook).bids ≠ []) ∧
    ((⟨[⟨100, 1000⟩], [⟨101, 10⟩]⟩ : OrderBook).asks ≠ []) ∧
    ((((detAnalyze defaultD ⟨[⟨100, 1000⟩], [⟨101, 10⟩]⟩).1.anomalies.filter fun a =>
        decide (a.type = .SPOOFING)).length ≤ 1) ∧
    (∀ s i lv, (spoofScan ⟨[⟨100, 1000⟩], [⟨101, 10⟩]⟩).find?
        (fun x => decide (spoofThr (updateStats defaultD ⟨[⟨100, 1000⟩], [⟨101, 10⟩]⟩) <
          x.2.2.volume)) = some (s, i, lv) →
      ((detAnalyze defaultD ⟨[⟨100, 1000⟩], [⟨101, 10⟩]⟩).1.anomalies.filter fun a =>
          decide (a.type = .SPOOFING)) =
        [{ type := .SPOOFING,
           severity := if 70 < spoofRiskScore
               (spoofThr (updateStats defaultD ⟨[⟨100, 1000⟩], [⟨101, 10⟩]⟩)) lv.volume
             then .HIGH else .MEDIUM,
           riskScore := (spoofRiskScore
             (spoofThr (updateStats defaultD ⟨[⟨100, 1000⟩], [⟨101, 10⟩]⟩)) lv.volume : ℝ),
           side := some s, level := some (i + 1) }] ∧
      (0 < spoofThr (updateStats defaultD ⟨[⟨100, 1000⟩], [⟨101, 10⟩]⟩) →
        0 < spoofRiskScore
          (spoofThr (updateStats defaultD ⟨[⟨100, 1000⟩], [⟨101, 10⟩]⟩)) lv.volume))) :=
  ⟨by decide, by decide,
    claim_C3_spoofing_first_match defaultD ⟨[⟨100, 1000⟩], [⟨101, 10⟩]⟩ (by decide) (by decide)⟩

theorem levelErrs_ne_nil {side : Side} {i : ℕ} {lv : RawLevel} (h : BadLevel lv) :
    levelErrs side i lv ≠ [] := by
  unfold levelErrs
  by_cases hlen : lv.length < 2
  · rw [if_pos hlen]
    simp
  · rw [if_neg hlen]
    rcases h with h | h | h
    · exact absurd h hlen
    · rw [h]
      simp
    · rw [h]
      intro hc
      rw [List.append_eq_nil] at hc
      simp at hc

theorem validateLevelsAux_ne_nil {side : Side} {ls : List RawLevel} {j : ℕ} {lv : RawLevel}
    (hj : ls[j]? = some lv) (hbad : BadLevel lv) :
    ∀ i0, validateLevelsAux side i0 ls ≠ [] := by
  induction ls generalizing j with
  | nil => simp at hj
  | cons hd tl ih =>
    intro i0
    unfold validateLevelsAux
    intro hc
    rw [List.append_eq_nil] at hc
    obtain ⟨h1, h2⟩ := hc
    cases j with
    | zero =>
      simp only [List.getElem?_cons_zero, Option.some_inj] at hj
      exact levelErrs_ne_nil (hj ▸ hbad) h1
    | succ j' =>
      simp only [List.getElem?_cons_succ] at hj
      exact ih hj (i0 + 1) h2

theorem validateLevels_ne_nil {side : Side} {levels : List RawLevel} {i : ℕ}
    (hi : i < 10) (hlv : levels[i]? = some lv) (hbad : BadLevel lv) :
    validateLevels side levels ≠ [] := by
  unfold validateLevels
  have htake : (levels.take 10)[i]? = some lv := by
    rw [List.getElem?_take_of_lt hi]
    exact hlv
  exact validateLevelsAux_ne_nil htake hbad 0

/-- C7 amended: validate_snapshot rejects a snapshot whenever one of the
first ten levels of either list (the max_check = 10 window of
_validate_levels) has fewer than two entries, a price that is not a
positive finite number, or a volume that is not a non-negative finite
number; levels beyond the tenth of a side are never inspected. -/
theorem claim_C7_amended (s : RawSnapshot) (i : ℕ) (lv : RawLevel)
    (hi : i < 10) (hlv : s.bids[i]? = some lv ∨ s.asks[i]? = some lv)
    (hbad : BadLevel lv) :
    (validateSnapshot s).isValid = false := by
  unfold validateSnapshot
  simp only [decide_eq_false_iff_not]
  intro hnil
  rw [List.append_eq_nil, List.append_eq_nil] at hnil
  obtain ⟨⟨h1, -⟩, -⟩ := hnil
  rw [List.append_eq_nil] at h1
  obtain ⟨hbid, hask⟩ := h1
  rcases hlv with hlv | hlv
  · have hne : s.bids ≠ [] := by
      intro hnilb
      rw [hnilb] at hlv
      simp at hlv
    rw [if_neg hne] at hbid
    exact validateLevels_ne_nil hi hlv hbad hbid
  · have hne : s.asks ≠ [] := by
      intro hnila
      rw [hnila] at hlv
      simp at hlv
    rw [if_neg hne] at hask
    exact validateLevels_ne_nil hi hlv hbad hask

/-- C7 witness: a snapshot with a negative price at the first bid level
is rejected. -/
theorem claim_C7_witness :
    0 < 10 ∧
    ((⟨[rawLevel (-1) 1], [rawLevel 101 5], none⟩ : RawSnapshot).bids[0]? =
        some (rawLevel (-1) 1) ∨
      (⟨[rawLevel (-1) 1], [rawLevel 101 5], none⟩ : RawSnapshot).asks[0]? =
        some (rawLevel (-1) 1)) ∧
    BadLevel (rawLevel (-1) 1) ∧
    (validateSnapshot ⟨[rawLevel (-1) 1], [rawLevel 101 5], none⟩).isValid = false :=
  ⟨by decide, Or.inl (by decide), by decide,
    claim_C7_amended ⟨[rawLevel (-1) 1], [rawLevel 101 5], none⟩ 0 (rawLevel (-1) 1)
      (by decide) (Or.inl (by decide)) (by decide)⟩

/-- C7 counterexample: the claim as stated quantifies over every level
of the snapshot, but a snapshot whose eleventh bid level has a negative
price is still accepted by validate_snapshot, because _validate_levels
stops after ten levels per side. -/
theorem claim_C7_counterexample :
    elevenSnap.bids[10]? = some (rawLevel (-1) 1) ∧
    BadLevel (rawLevel (-1) 1) ∧
    (validateSnapshot elevenSnap).isValid = true := by
  refine ⟨by decide, by decide, ?_⟩
  have h1 : validateLevels .BID elevenSnap.bids = [] := by decide
  have h2 : validateLevels .ASK elevenSnap.asks = [] := by decide
  have hb : elevenSnap.bids ≠ [] := by decide
  have ha : elevenSnap.asks ≠ [] := by decide
  have hbb : List.getD elevenSnap.bids.headI 0 (RawVal.num 0) = RawVal.num 100 := by decide
  have hba : List.getD elevenSnap.asks.headI 0 (RawVal.num 0) = RawVal.num 101 := by decide
  unfold validateSnapshot
  rw [if_neg hb, if_neg ha, h1, h2, hbb, hba]
  have hmid : elevenSnap.midPrice = none := rfl
  simp only [List.nil_append]
  norm_num [hb, ha, hmid]

theorem sum_map_sub (l : List ℕ) (f g : ℕ → ℝ) :
    (l.map f).sum - (l.map g).sum = (l.map fun i => f i - g i).sum := by
  induction l with
  | nil => simp
  | cons a t ih =>
    simp only [List.map_cons, List.sum_cons]
    rw [← ih]
    ring

theorem sum_map_pos (l : List ℕ) (f : ℕ → ℝ) (h0 : ∀ x ∈ l, 0 ≤ f x)
    (hx : ∃ x ∈ l, 0 < f x) : 0 < (l.map f).sum := by
  obtain ⟨x, hxl, hfx⟩ := hx
  have hle : f x ≤ (l.map f).sum := by
    refine List.single_le_sum ?_ _ (List.mem_map_of_mem f hxl)
    intro y hy
    obtain ⟨z, hz, rfl⟩ := List.mem_map.mp hy
    exact h0 z hz
  linarith

theorem sum_map_neg_eq (l : List ℕ) (f : ℕ → ℝ) :
    (l.map fun i => -f i).sum = -(l.map f).sum := by
  induction l with
  | nil => simp
  | cons a t ih =>
    simp only [List.map_cons, List.sum_cons, ih]
    ring

theorem roundR_zero (n : ℕ) : roundR n 0 = 0 := by
  unfold roundR
  rw [zero_mul, round_zero]
  simp

theorem roundR_nonneg {n : ℕ} {x : ℝ} (h : 0 ≤ x) : 0 ≤ roundR n x := by
  unfold roundR
  refine div_nonneg ?_ (by positivity)
  have hz : (0 : ℤ) ≤ round (x * 10 ^ n) :=
    int_le_round (by push_cast; exact mul_nonneg h (by positivity))
  exact_mod_cast hz

theorem roundR_nonpos {n : ℕ} {x : ℝ} (h : x ≤ 0) : roundR n x ≤ 0 := by
  unfold roundR
  have h1 : x * 10 ^ n ≤ 0 := mul_nonpos_of_nonpos_of_nonneg h (by positivity)
  have hz : round (x * 10 ^ n) ≤ (0 : ℤ) := round_le_int (by exact_mod_cast h1)
  have hc : ((round (x * 10 ^ n) : ℤ) : ℝ) ≤ 0 := by exact_mod_cast hz
  exact div_nonpos_of_nonpos_of_nonneg hc (by positivity)

theorem calcObi_sign (st : MState) (b : OrderBook) (s : Side)
    (hpw : ∀ i < obiNumLevels b, HeavierAt s b i)
    (hstrict : ∃ i, i < obiNumLevels b ∧ StrictlyHeavierAt s b i)
    (hguard : ¬(obiTotalWeight st.decayFactor b < 1 / 10 ^ 9)) :
    ObiSign s (calcObi st b) := by
  have htw : (0 : ℝ) < obiTotalWeight st.decayFactor b :=
    lt_of_lt_of_le (by norm_num) (not_lt.mp hguard)
  unfold calcObi
  rw [if_neg hguard]
  have hdiff := sum_map_sub (List.range (obiNumLevels b))
    (fun i => (bidVolAt b i : ℝ) * obiWeight st.decayFactor i)
    (fun i => (askVolAt b i : ℝ) * obiWeight st.decayFactor i)
  obtain ⟨i0, hi0, hstr⟩ := hstrict
  cases s with
  | BID =>
    show 0 < (obiWeightedBid st.decayFactor b - obiWeightedAsk st.decayFactor b) /
      obiTotalWeight st.decayFactor b
    refine div_pos ?_ htw
    unfold obiWeightedBid obiWeightedAsk
    rw [hdiff]
    refine sum_map_pos _ _ ?_ ⟨i0, List.mem_range.mpr hi0, ?_⟩
    · intro i hi
      have hw := Real.exp_pos (-(st.decayFactor : ℝ) * i)
      have hh : askVolAt b i ≤ bidVolAt b i := hpw i (List.mem_range.mp hi)
      have hcast : (askVolAt b i : ℝ) ≤ (bidVolAt b i : ℝ) := by exact_mod_cast hh
      have hfac : (0 : ℝ) ≤ (bidVolAt b i : ℝ) - (askVolAt b i : ℝ) := by linarith
      calc (0 : ℝ) = 0 * obiWeight st.decayFactor i := by ring
        _ ≤ ((bidVolAt b i : ℝ) - (askVolAt b i : ℝ)) * obiWeight st.decayFactor i := by
            unfold obiWeight
            exact mul_le_mul_of_nonneg_right hfac (le_of_lt hw)
        _ = ((bidVolAt b i : ℝ) * obiWeight st.decayFactor i -
              (askVolAt b i : ℝ) * obiWeight st.decayFactor i) := by ring
    · have hh : askVolAt b i0 < bidVolAt b i0 := hstr
      have hcast : (askVolAt b i0 : ℝ) < (bidVolAt b i0 : ℝ) := by exact_mod_cast hh
      have hw := Real.exp_pos (-(st.decayFactor : ℝ) * i0)
      have h1 : 0 < ((bidVolAt b i0 : ℝ) - (askVolAt b i0 : ℝ)) * obiWeight st.decayFactor i0 := by
        unfold obiWeight
        exact mul_pos (by linarith) hw
      linarith [h1]
  | ASK =>
    show (obiWeightedBid st.decayFactor b - obiWeightedAsk st.decayFactor b) /
      obiTotalWeight st.decayFactor b < 0
    refine div_neg_of_neg_of_pos ?_ htw
    unfold obiWeightedBid obiWeightedAsk
    rw [hdiff]
    have hneg : 0 < ((List.range (obiNumLevels b)).map fun i =>
        -((bidVolAt b i : ℝ) * obiWeight st.decayFactor i -
          (askVolAt b i : ℝ) * obiWeight st.decayFactor i)).sum := by
      refine sum_map_pos _ _ ?_ ⟨i0, List.mem_range.mpr hi0, ?_⟩
      · intro i hi
        have hw := Real.exp_pos (-(st.decayFactor : ℝ) * i)
        have hh : bidVolAt b i ≤ askVolAt b i := hpw i (List.mem_range.mp hi)
        have hcast : (bidVolAt b i : ℝ) ≤ (askVolAt b i : ℝ) := by exact_mod_cast hh
        have h1 : ((bidVolAt b i : ℝ) - (askVolAt b i : ℝ)) * obiWeight st.decayFactor i ≤ 0 := by
          unfold obiWeight
          exact mul_nonpos_of_nonpos_of_nonneg (by linarith) (le_of_lt hw)
        nlinarith [h1]
      · have hh : bidVolAt b i0 < askVolAt b i0 := hstr
        have hcast : (bidVolAt b i0 : ℝ) < (askVolAt b i0 : ℝ) := by exact_mod_cast hh
        have hw := Real.exp_pos (-(st.decayFactor : ℝ) * i0)
        have h1 : ((bidVolAt b i0 : ℝ) - (askVolAt b i0 : ℝ)) * obiWeight st.decayFactor i0 < 0 :=
          mul_neg_of_neg_of_pos (by linarith) (by unfold obiWeight; exact hw)
        nlinarith [h1]
    rw [sum_map_neg_eq] at hneg
    linarith

/-- C6 amended: when one side pointwise dominates the other over the
compared top-5 levels (strictly at some level) and the weighted total
volume passes the 1e-9 epsilon guard of _calculate_obi, the
pre-rounding OBI is strictly positive for a bid-dominant book and
strictly negative for an ask-dominant book, and the rounded obi field
returned by analyze has the corresponding weak sign. -/
theorem claim_C6_obi_sign (st : MState) (b : OrderBook) (s : Side) (hb : b.Valid)
    (hpw : ∀ i < obiNumLevels b, HeavierAt s b i)
    (hstrict : ∃ i, i < obiNumLevels b ∧ StrictlyHeavierAt s b i)
    (hguard : ¬(obiTotalWeight st.decayFactor b < 1 / 10 ^ 9)) :
    ObiSign s (calcObi st b) ∧
    ∃ m, (microAnalyze st b).1 = .ok m ∧ m.obi = roundR 4 (calcObi st b) ∧
      ObiSignWeak s m.obi := by
  have hsign := calcObi_sign st b s hpw hstrict hguard
  refine ⟨hsign, ?_⟩
  rw [microAnalyze_of_valid st hb]
  refine ⟨_, rfl, rfl, ?_⟩
  show ObiSignWeak s (roundR 4 (calcObi st b))
  cases s with
  | BID => exact roundR_nonneg (le_of_lt hsign)
  | ASK => exact roundR_nonpos (le_of_lt hsign)

/-- C6 witness: a bid-dominant one-level book on the default analyzer. -/
theorem claim_C6_witness :
    (⟨[⟨100, 10⟩], [⟨101, 5⟩]⟩ : OrderBook).Valid ∧
    (∀ i < obiNumLevels ⟨[⟨100, 10⟩], [⟨101, 5⟩]⟩,
      HeavierAt .BID ⟨[⟨100, 10⟩], [⟨101, 5⟩]⟩ i) ∧
    (∃ i, i < obiNumLevels ⟨[⟨100, 10⟩], [⟨101, 5⟩]⟩ ∧
      StrictlyHeavierAt .BID ⟨[⟨100, 10⟩], [⟨101, 5⟩]⟩ i) ∧
    ¬(obiTotalWeight defaultM.decayFactor ⟨[⟨100, 10⟩], [⟨101, 5⟩]⟩ < 1 / 10 ^ 9) ∧
    (ObiSign .BID (calcObi defaultM ⟨[⟨100, 10⟩], [⟨101, 5⟩]⟩) ∧
      ∃ m, (microAnalyze defaultM ⟨[⟨100, 10⟩], [⟨101, 5⟩]⟩).1 = .ok m ∧
        m.obi = roundR 4 (calcObi defaultM ⟨[⟨100, 10⟩], [⟨101, 5⟩]⟩) ∧
        ObiSignWeak .BID m.obi) := by
  have hguard : ¬(obiTotalWeight defaultM.decayFactor ⟨[⟨100, 10⟩], [⟨101, 5⟩]⟩ < 1 / 10 ^ 9) := by
    have h1 : obiNumLevels ⟨[⟨100, 10⟩], [⟨101, 5⟩]⟩ = 1 := rfl
    have hr1 : List.range 1 = [0] := rfl
    unfold obiTotalWeight
    rw [h1, hr1]
    simp only [List.map_cons, List.map_nil, List.sum_cons, List.sum_nil, bidVolAt, askVolAt,
      List.getD, List.getElem?_cons_zero, Option.getD_some, obiWeight, Nat.cast_zero,
      mul_zero, neg_zero, Real.exp_zero, add_zero, mul_one]
    norm_num
  exact ⟨by decide, by decide, ⟨0, by decide, by decide⟩, hguard,
    claim_C6_obi_sign defaultM ⟨[⟨100, 10⟩], [⟨101, 5⟩]⟩ .BID (by decide) (by decide)
      ⟨0, by decide, by decide⟩ hguard⟩

/-- C6 counterexample: a valid bid-dominant book with a tiny total
volume fails the 1e-9 epsilon guard, so _calculate_obi returns 0 and the
obi field returned by analyze is 0, not strictly positive as the claim
states. -/
theorem claim_C6_counterexample :
    (⟨[⟨100, 1 / 10 ^ 10⟩], [⟨101, 0⟩]⟩ : OrderBook).Valid ∧
    (∀ i < obiNumLevels ⟨[⟨100, 1 / 10 ^ 10⟩], [⟨101, 0⟩]⟩,
      HeavierAt .BID ⟨[⟨100, 1 / 10 ^ 10⟩], [⟨101, 0⟩]⟩ i) ∧
    (∃ i, i < obiNumLevels ⟨[⟨100, 1 / 10 ^ 10⟩], [⟨101, 0⟩]⟩ ∧
      StrictlyHeavierAt .BID ⟨[⟨100, 1 / 10 ^ 10⟩], [⟨101, 0⟩]⟩ i) ∧
    calcObi defaultM ⟨[⟨100, 1 / 10 ^ 10⟩], [⟨101, 0⟩]⟩ = 0 ∧
    ((microAnalyze defaultM ⟨[⟨100, 1 / 10 ^ 10⟩], [⟨101, 0⟩]⟩).1.map fun m => m.obi) =
      .ok 0 := by
  have hvalid : (⟨[⟨100, 1 / 10 ^ 10⟩], [⟨101, 0⟩]⟩ : OrderBook).Valid := by
    refine ⟨by simp, by simp, ?_, by norm_num [List.headI]⟩
    intro l hl
    simp only [List.cons_append, List.nil_append, List.mem_cons, List.not_mem_nil,
      or_false] at hl
    rcases hl with rfl | rfl <;> constructor <;> norm_num
  have hguard : obiTotalWeight defaultM.decayFactor ⟨[⟨100, 1 / 10 ^ 10⟩], [⟨101, 0⟩]⟩ <
      1 / 10 ^ 9 := by
    have h1 : obiNumLevels ⟨[⟨100, 1 / 10 ^ 10⟩], [⟨101, 0⟩]⟩ = 1 := rfl
    have hr1 : List.range 1 = [0] := rfl
    unfold obiTotalWeight
    rw [h1, hr1]
    simp only [List.map_cons, List.map_nil, List.sum_cons, List.sum_nil, bidVolAt, askVolAt,
      List.getD, List.getElem?_cons_zero, Option.getD_some, obiWeight, Nat.cast_zero,
      mul_zero, neg_zero, Real.exp_zero, add_zero, mul_one]
    norm_num
  have hobi : calcObi defaultM ⟨[⟨100, 1 / 10 ^ 10⟩], [⟨101, 0⟩]⟩ = 0 := by
    unfold calcObi
    rw [if_pos hguard]
  refine ⟨hvalid, ?_, ⟨0, ?_, ?_⟩, hobi, ?_⟩
  · intro i hi
    have h1 : obiNumLevels ⟨[⟨100, 1 / 10 ^ 10⟩], [⟨101, 0⟩]⟩ = 1 := rfl
    rw [h1] at hi
    have hz : i = 0 := Nat.lt_one_iff.mp hi
    subst hz
    show askVolAt _ 0 ≤ bidVolAt _ 0
    norm_num [askVolAt, bidVolAt, List.getD]
  · norm_num [obiNumLevels]
  · show askVolAt _ 0 < bidVolAt _ 0
    norm_num [askVolAt, bidVolAt, List.getD]
  · rw [microAnalyze_of_valid defaultM hvalid]
    show Except.ok (roundR 4 (calcObi defaultM ⟨[⟨100, 1 / 10 ^ 10⟩], [⟨101, 0⟩]⟩)) = _
    rw [hobi, roundR_zero]

theorem detPre_fields (st : DState) (b : OrderBook) :
    (detPre st b).spreadShockMultiplier = st.spreadShockMultiplier ∧
    (detPre st b).spoofingVolumeThreshold = st.spoofingVolumeThreshold ∧
    (detPre st b).ewmaAlpha = st.ewmaAlpha ∧
    (detPre st b).avgL1Volume = (updateStats st b).avgL1Volume := by
  unfold detPre
  split_ifs <;> simp [updateStats]

theorem detState3_fields (st : DState) (b : OrderBook) :
    (detState3 st b).spreadShockMultiplier = st.spreadShockMultiplier ∧
    (detState3 st b).spoofingVolumeThreshold = st.spoofingVolumeThreshold ∧
    (detState3 st b).ewmaAlpha = st.ewmaAlpha ∧
    (detState3 st b).avgL1Volume = (updateStats st b).avgL1Volume := by
  have hpre := detPre_fields st b
  simp only [detState3]
  split_ifs <;> exact ⟨hpre.1, hpre.2.1, hpre.2.2.1, hpre.2.2.2⟩

theorem updateStats_avgL1_pos {st : DState} {b : OrderBook} (h0 : 0 ≤ st.ewmaAlpha)
    (h1 : st.ewmaAlpha < 1) (hpos : 0 < st.avgL1Volume) (hb : b.Valid) :
    0 < (updateStats st b).avgL1Volume := by
  unfold updateStats
  simp only
  have hv := valid_book_facts hb
  have hl1 : 0 ≤ (b.bids.headI.volume + b.asks.headI.volume) / 2 := by
    have := hv.2.2.1
    have := hv.2.2.2.1
    linarith
  nlinarith

theorem detAnalyze_step_facts (st : DState) {b : OrderBook} (hb : b.Valid) :
    (detAnalyze st b).2.avgL1Volume = (updateStats st b).avgL1Volume ∧
    (detAnalyze st b).2.ewmaAlpha = st.ewmaAlpha ∧
    (detAnalyze st b).2.spoofingVolumeThreshold = st.spoofingVolumeThreshold ∧
    (detAnalyze st b).2.spreadShockMultiplier = st.spreadShockMultiplier := by
  rw [detAnalyze_of_nonempty st hb.1 hb.2.1]
  have hd := detState3_fields st b
  exact ⟨hd.2.2.2, hd.2.2.1, hd.2.1, hd.1⟩

theorem runDState_facts {bs : List OrderBook} :
    ∀ {st : DState}, 0 ≤ st.ewmaAlpha → st.ewmaAlpha < 1 → 0 < st.avgL1Volume →
    (∀ x ∈ bs, x.Valid) →
    0 < (runDState st bs).avgL1Volume ∧ (runDState st bs).ewmaAlpha = st.ewmaAlpha ∧
    (runDState st bs).spoofingVolumeThreshold = st.spoofingVolumeThreshold ∧
    (runDState st bs).spreadShockMultiplier = st.spreadShockMultiplier := by
  induction bs with
  | nil => exact fun h0 h1 hpos _ => ⟨hpos, rfl, rfl, rfl⟩
  | cons b bs ih =>
    intro st h0 h1 hpos hbs
    have hbv : b.Valid := hbs b (List.mem_cons_self b bs)
    have hstep := detAnalyze_step_facts st hbv
    have hrun : runDState st (b :: bs) = runDState (detAnalyze st b).2 bs := rfl
    rw [hrun]
    have h0' : 0 ≤ (detAnalyze st b).2.ewmaAlpha := by rw [hstep.2.1]; exact h0
    have h1' : (detAnalyze st b).2.ewmaAlpha < 1 := by rw [hstep.2.1]; exact h1
    have hpos' : 0 < (detAnalyze st b).2.avgL1Volume := by
      rw [hstep.1]
      exact updateStats_avgL1_pos h0 h1 hpos hbv
    have hrest := ih h0' h1' hpos' (fun x hx => hbs x (List.mem_cons_of_mem b hx))
    refine ⟨hrest.1, ?_, ?_, ?_⟩
    · rw [hrest.2.1, hstep.2.1]
    · rw [hrest.2.2.1, hstep.2.2.1]
    · rw [hrest.2.2.2, hstep.2.2.2]

theorem detectSpoofing_risk_nonneg {st2 : DState} {b : OrderBook} {a : Anomaly}
    (ha : a ∈ (detectSpoofing st2 b).toList) (hthr : 0 < spoofThr st2) : 0 ≤ a.riskScore := by
  unfold detectSpoofing at ha
  cases hf : (spoofScan b).find? fun x => decide (spoofThr st2 < x.2.2.volume) with
  | none =>
    rw [hf] at ha
    simp at ha
  | some x =>
    rw [hf] at ha
    simp only [Option.map_some', Option.toList_some, List.mem_singleton] at ha
    subst ha
    show (0 : ℝ) ≤ ((spoofRiskScore (spoofThr st2) x.2.2.volume : ℚ) : ℝ)
    have hp := List.find?_some hf
    simp only [decide_eq_true_eq] at hp
    have hq : 0 ≤ spoofRiskScore (spoofThr st2) x.2.2.volume := by
      unfold spoofRiskScore
      have hdiv : (1 : ℚ) < x.2.2.volume / spoofThr st2 := (one_lt_div hthr).mpr hp
      rw [le_min_iff]
      constructor
      · norm_num
      · nlinarith
    exact_mod_cast hq

theorem detectLayering_risk_nonneg {st : DState} {b : OrderBook} {a : Anomaly}
    (ha : a ∈ (detectLayering st b).toList) : 0 ≤ a.riskScore := by
  simp only [detectLayering] at ha
  split_ifs at ha <;>
    simp only [Option.toList_some, Option.toList_none, List.mem_singleton,
      List.not_mem_nil] at ha <;>
    subst ha <;>
    · dsimp only
      positivity

theorem gapScan_index_lt {b : OrderBook} {x : Side × ℕ × OrderBookLevel}
    (h : x ∈ gapScan b) : x.2.1 < 10 := by
  unfold gapScan at h
  rcases List.mem_append.mp h with h | h
  · obtain ⟨p, hp, rfl⟩ := List.mem_map.mp h
    have hg := List.mem_enum_iff_getElem?.mp hp
    obtain ⟨hlt, -⟩ := List.getElem?_eq_some_iff.mp hg
    have hlen : (List.take 10 b.bids).length ≤ 10 := List.length_take_le 10 b.bids
    show p.1 < 10
    omega
  · obtain ⟨p, hp, rfl⟩ := List.mem_map.mp h
    have hg := List.mem_enum_iff_getElem?.mp hp
    obtain ⟨hlt, -⟩ := List.getElem?_eq_some_iff.mp hg
    have hlen : (List.take 10 b.asks).length ≤ 10 := List.length_take_le 10 b.asks
    show p.1 < 10
    omega

theorem detectLiquidityGaps_risk_nonneg {st : DState} {b : OrderBook} {a : Anomaly}
    (ha : a ∈ detectLiquidityGaps st b) : 0 ≤ a.riskScore := by
  unfold detectLiquidityGaps at ha
  have h2 := List.mem_of_mem_take ha
  obtain ⟨x, hx, rfl⟩ := List.mem_map.mp h2
  have hmem := List.mem_of_mem_filter hx
  have hvol := List.of_mem_filter hx
  simp only [decide_eq_true_eq] at hvol
  have hidx : x.2.1 < 10 := gapScan_index_lt hmem
  show (0 : ℝ) ≤ ((_ : ℚ) : ℝ)
  have hq : (0 : ℚ) ≤ min 100 ((10 - (x.2.1 : ℚ)) * 15 +
      (st.liquidityGapThreshold - x.2.2.volume) * 2) := by
    have hc : (x.2.1 : ℚ) ≤ 9 := by exact_mod_cast Nat.lt_succ_iff.mp hidx
    rw [le_min_iff]
    constructor
    · norm_num
    · nlinarith
  exact_mod_cast hq

theorem detectHeavyImbalance_risk_nonneg {st : DState} {b : OrderBook} {a : Anomaly}
    (ha : a ∈ (detectHeavyImbalance st b).toList) : 0 ≤ a.riskScore := by
  simp only [detectHeavyImbalance] at ha
  split_ifs at ha <;>
    simp only [Option.toList_some, Option.toList_none, List.mem_singleton,
      List.not_mem_nil] at ha <;>
    subst ha <;>
    · dsimp only
      positivity

theorem detectSpreadShock_risk_nonneg {st : DState} {b : OrderBook} {a : Anomaly}
    (ha : a ∈ (detectSpreadShock st b).toList) (hm : 0 ≤ st.spreadShockMultiplier) :
    0 ≤ a.riskScore := by
  simp only [detectSpreadShock] at ha
  split_ifs at ha with hstd hz hsev <;>
    simp only [Option.toList_some, Option.toList_none, List.mem_singleton,
      List.not_mem_nil] at ha <;>
    subst ha <;>
    · dsimp only
      have hmr : (0 : ℝ) ≤ ((st.spreadShockMultiplier : ℚ) : ℝ) := by exact_mod_cast hm
      rw [le_min_iff]
      constructor
      · norm_num
      · nlinarith [hz]

theorem detAnomalies_risk_nonneg {st : DState} {b : OrderBook}
    (hthr : 0 < spoofThr (updateStats st b)) (hm : 0 ≤ st.spreadShockMultiplier) :
    ∀ a ∈ detAnomalies st b, 0 ≤ a.riskScore := by
  intro a ha
  unfold detAnomalies at ha
  have hd := detState3_fields st b
  rcases List.mem_append.mp ha with ha | ha
  rcases List.mem_append.mp ha with ha | ha
  rcases List.mem_append.mp ha with ha | ha
  rcases List.mem_append.mp ha with ha | ha
  · refine detectSpoofing_risk_nonneg ha ?_
    rw [spoofThr_detPre]
    exact hthr
  · exact detectLayering_risk_nonneg ha
  · exact detectLiquidityGaps_risk_nonneg ha
  · exact detectHeavyImbalance_risk_nonneg ha
  · refine detectSpreadShock_risk_nonneg ha ?_
    rw [hd.1]
    exact hm

theorem calcSpoofingRisk_bounds (st : DState) (b : OrderBook) :
    0 ≤ calcSpoofingRisk st b ∧ calcSpoofingRisk st b ≤ 100 := by
  simp only [calcSpoofingRisk]
  split_ifs <;>
    first
      | exact ⟨le_refl 0, by norm_num⟩
      | · rename_i hratio
          exact ⟨le_min_iff.mpr ⟨by norm_num, by nlinarith⟩, min_le_left _ _⟩

theorem calcLiquidityScore_bounds {b : OrderBook} (hb : b.Valid) :
    0 ≤ calcLiquidityScore b ∧ calcLiquidityScore b ≤ 100 := by
  have hv := valid_book_facts hb
  have hvols : ∀ l ∈ b.bids ++ b.asks, 0 ≤ l.volume := fun l hl => (hb.2.2.1 l hl).2
  have hdepth : 0 ≤ ((b.bids.take 5).map (·.volume)).sum + ((b.asks.take 5).map (·.volume)).sum := by
    have hb5 : 0 ≤ ((b.bids.take 5).map (·.volume)).sum := by
      refine List.sum_nonneg ?_
      intro y hy
      obtain ⟨l, hl, rfl⟩ := List.mem_map.mp hy
      exact hvols l (List.mem_append_left _ (List.mem_of_mem_take hl))
    have ha5 : 0 ≤ ((b.asks.take 5).map (·.volume)).sum := by
      refine List.sum_nonneg ?_
      intro y hy
      obtain ⟨l, hl, rfl⟩ := List.mem_map.mp hy
      exact hvols l (List.mem_append_right _ (List.mem_of_mem_take hl))
    linarith
  have hbps : orDefaultQ b.spreadBps? 100 = microSpread b / microMid b * 10000 ∧
      0 < microSpread b / microMid b * 10000 := by
    have hpos : 0 < microSpread b / microMid b * 10000 := by
      have hs : 0 < microSpread b := by
        unfold microSpread
        have := hv.2.2.2.2
        linarith
      have hmp : 0 < microMid b := by
        unfold microMid
        have := hv.1
        have := hv.2.1
        linarith
      positivity
    constructor
    · rw [spreadBps?_of_valid hb]
      simp only [orDefaultQ]
      rw [if_neg (ne_of_gt hpos)]
    · exact hpos
  unfold calcLiquidityScore
  rw [hbps.1]
  constructor
  · have h1 : (0 : ℚ) ≤ min 50 ((((b.bids.take 5).map (·.volume)).sum +
        ((b.asks.take 5).map (·.volume)).sum) / 100) :=
      le_min_iff.mpr ⟨by norm_num, by linarith⟩
    have h2 : (0 : ℚ) ≤ max 0 (50 - microSpread b / microMid b * 10000) := le_max_left _ _
    linarith
  · have h1 : min 50 ((((b.bids.take 5).map (·.volume)).sum +
        ((b.asks.take 5).map (·.volume)).sum) / 100) ≤ 50 := min_le_left _ _
    have h2 : max 0 (50 - microSpread b / microMid b * 10000) ≤ 50 :=
      max_le (by norm_num) (by linarith [hbps.2])
    linarith

theorem calcOverallRisk_bounds {anoms : List Anomaly} {spoofR liqS : ℚ}
    (hrisk : ∀ a ∈ anoms, 0 ≤ a.riskScore) (hsp0 : 0 ≤ spoofR)
    (hl100 : liqS ≤ 100) :
    0 ≤ calcOverallRisk anoms spoofR liqS ∧ calcOverallRisk anoms spoofR liqS ≤ 100 := by
  unfold calcOverallRisk
  have hsum : (0 : ℝ) ≤ (anoms.map (·.riskScore)).sum := by
    refine List.sum_nonneg ?_
    intro y hy
    obtain ⟨a, ha, rfl⟩ := List.mem_map.mp hy
    exact hrisk a ha
  have hbase : (0 : ℝ) ≤ ((100 - liqS : ℚ) : ℝ) := by
    have : (0 : ℚ) ≤ 100 - liqS := by linarith
    exact_mod_cast this
  have hspr : (0 : ℝ) ≤ ((spoofR : ℚ) : ℝ) := by exact_mod_cast hsp0
  constructor
  · rw [le_min_iff]
    constructor
    · norm_num
    · nlinarith
  · exact min_le_left _ _

/-- C10: after any sequence of prior analyze calls on valid books, one
further analyze call on a valid book returns overall_risk_score,
spoofing_risk and liquidity_score each between 0 and 100; the
configuration must satisfy 0 <= ewma_alpha < 1, spoofing_volume_threshold
> 0 and spread_shock_multiplier >= 0, as the defaults (0.05, 5.0, 3.0)
do. -/
theorem claim_C10_score_ranges (spoofTh liqTh imbTh shockTh alpha : ℚ)
    (h0 : 0 ≤ alpha) (h1 : alpha < 1) (hsp : 0 < spoofTh) (hsh : 0 ≤ shockTh)
    (bs : List OrderBook) (hbs : ∀ x ∈ bs, x.Valid)
    (st : DState) (hst : st = runDState (initD spoofTh liqTh imbTh shockTh alpha) bs)
    (b : OrderBook) (hb : b.Valid) :
    0 ≤ (detAnalyze st b).1.overallRiskScore ∧ (detAnalyze st b).1.overallRiskScore ≤ 100 ∧
    0 ≤ (detAnalyze st b).1.spoofingRisk ∧ (detAnalyze st b).1.spoofingRisk ≤ 100 ∧
    0 ≤ (detAnalyze st b).1.liquidityScore ∧ (detAnalyze st b).1.liquidityScore ≤ 100 := by
  subst hst
  have hrun : 0 < (runDState (initD spoofTh liqTh imbTh shockTh alpha) bs).avgL1Volume ∧
      (runDState (initD spoofTh liqTh imbTh shockTh alpha) bs).ewmaAlpha =
        (initD spoofTh liqTh imbTh shockTh alpha).ewmaAlpha ∧
      (runDState (initD spoofTh liqTh imbTh shockTh alpha) bs).spoofingVolumeThreshold =
        (initD spoofTh liqTh imbTh shockTh alpha).spoofingVolumeThreshold ∧
      (runDState (initD spoofTh liqTh imbTh shockTh alpha) bs).spreadShockMultiplier =
        (initD spoofTh liqTh imbTh shockTh alpha).spreadShockMultiplier :=
    runDState_facts h0 h1 (by norm_num [initD]) hbs
  set st := runDState (initD spoofTh liqTh imbTh shockTh alpha) bs with hst
  have hαst : st.ewmaAlpha = alpha := hrun.2.1
  have hspst : st.spoofingVolumeThreshold = spoofTh := hrun.2.2.1
  have hshst : st.spreadShockMultiplier = shockTh := hrun.2.2.2
  have hthr : 0 < spoofThr (updateStats st b) := by
    unfold spoofThr
    have havg : 0 < (updateStats st b).avgL1Volume :=
      updateStats_avgL1_pos (by rw [hαst]; exact h0) (by rw [hαst]; exact h1) hrun.1 hb
    have hcfg : (updateStats st b).spoofingVolumeThreshold = spoofTh := by
      unfold updateStats
      simp only
      exact hspst
    rw [hcfg]
    exact mul_pos havg hsp
  have hrisk := detAnomalies_risk_nonneg hthr (by rw [hshst]; exact hsh)
  have hspoofB := calcSpoofingRisk_bounds (detState3 st b) b
  have hliqB := calcLiquidityScore_bounds hb
  have hoverall := calcOverallRisk_bounds hrisk hspoofB.1 hliqB.2
  rw [detAnalyze_of_nonempty st hb.1 hb.2.1]
  exact ⟨hoverall.1, hoverall.2, hspoofB.1, hspoofB.2, hliqB.1, hliqB.2⟩

theorem filterMap_if_of_all {α β : Type} (p : α → Prop) [DecidablePred p] (f : α → β)
    (l : List α) (h : ∀ x ∈ l, p x) :
    (l.filterMap fun x => if p x then some (f x) else none) = l.map f := by
  induction l with
  | nil => rfl
  | cons a t ih =>
    rw [List.filterMap_cons, if_pos (h a (List.mem_cons_self a t)), List.map_cons,
      ih fun x hx => h x (List.mem_cons_of_mem a hx)]

theorem calcVolatility_of_pos {l : List ℚ} (hl : 20 ≤ l.length)
    (hpos : ∀ p ∈ l, 0 < p) :
    calcVolatility l = some (popStdDev (specLogReturns (l.drop (l.length - 20)))) := by
  simp only [calcVolatility]
  rw [if_neg (show ¬l.length < 20 by omega)]
  have hlen : (l.drop (l.length - 20)).length = 20 := by
    rw [List.length_drop]
    omega
  have hpp : ∀ pq ∈ (l.drop (l.length - 20)).zip (l.drop (l.length - 20)).tail,
      0 < pq.1 ∧ 0 < pq.2 := by
    intro pq hpq
    obtain ⟨h1, h2⟩ := List.of_mem_zip hpq
    exact ⟨hpos pq.1 (List.mem_of_mem_drop h1),
      hpos pq.2 (List.mem_of_mem_drop (List.mem_of_mem_tail h2))⟩
  have hfm : ((l.drop (l.length - 20)).zip (l.drop (l.length - 20)).tail).filterMap
      (fun pq => if 0 < pq.1 ∧ 0 < pq.2 then some (Real.log ((pq.2 : ℝ) / (pq.1 : ℝ))) else none) =
      ((l.drop (l.length - 20)).zip (l.drop (l.length - 20)).tail).map
        (fun pq => Real.log ((pq.2 : ℝ) / (pq.1 : ℝ))) :=
    filterMap_if_of_all (fun pq : ℚ × ℚ => 0 < pq.1 ∧ 0 < pq.2)
      (fun pq => Real.log ((pq.2 : ℝ) / (pq.1 : ℝ)))
      ((l.drop (l.length - 20)).zip (l.drop (l.length - 20)).tail) hpp
  rw [hfm]
  have hne : ¬(((l.drop (l.length - 20)).zip
      (l.drop (l.length - 20)).tail).map fun pq => Real.log ((pq.2 : ℝ) / (pq.1 : ℝ))).isEmpty = true := by
    rw [List.isEmpty_iff]
    intro hnil
    have hzl : (((l.drop (l.length - 20)).zip (l.drop (l.length - 20)).tail).map
        fun pq => Real.log ((pq.2 : ℝ) / (pq.1 : ℝ))).length = 0 := by
      rw [hnil]
      rfl
    rw [List.length_map, List.length_zip, List.length_tail, hlen] at hzl
    omega
  rw [if_neg hne]
  rfl

theorem microState2_priceHistory (st : MState) (b : OrderBook) :
    (microState2 st b).priceHistory =
      pushCap st.priceHistorySize st.priceHistory (microMid b) ∧
    (microState2 st b).priceHistorySize = st.priceHistorySize :=
  ⟨rfl, rfl⟩

theorem microMetrics_volatility (st : MState) (b : OrderBook) (sbps : ℚ) :
    (microMetrics st b sbps).volatility =
      match calcVolatility (microState2 st b).priceHistory with
      | some v => if v = 0 then none else some (roundR 6 v)
      | none => none :=
  rfl

/-- C4 amended: on a valid book, analyze succeeds; the volatility field
of the returned metrics is None exactly when the updated price history
holds fewer than 20 mid-prices OR the computed standard deviation is
exactly 0 (for example after constant prices); with at least 20
positive prices accumulated, the underlying value is the population
standard deviation of the log returns over the most recent 20
mid-prices, and any returned (non-None) volatility is that standard
deviation rounded to 6 decimals. -/
theorem claim_C4_volatility (st : MState) (b : OrderBook) (hb : b.Valid)
    (hist : ∀ p ∈ st.priceHistory, 0 < p) :
    ∃ m, (microAnalyze st b).1 = .ok m ∧
      (m.volatility = none ↔
        (microState2 st b).priceHistory.length < 20 ∨
        calcVolatility (microState2 st b).priceHistory = some 0) ∧
      (20 ≤ (microState2 st b).priceHistory.length →
        calcVolatility (microState2 st b).priceHistory =
          some (popStdDev (specLogReturns
            ((microState2 st b).priceHistory.drop
              ((microState2 st b).priceHistory.length - 20))))) ∧
      (∀ v, m.volatility = some v →
        v = roundR 6 (popStdDev (specLogReturns
          ((microState2 st b).priceHistory.drop
            ((microState2 st b).priceHistory.length - 20))))) := by
  have hmid : 0 < microMid b := by
    have hv := valid_book_facts hb
    unfold microMid
    linarith [hv.1, hv.2.1]
  have hpos : ∀ p ∈ (microState2 st b).priceHistory, 0 < p := by
    intro p hp
    rw [(microState2_priceHistory st b).1] at hp
    unfold pushCap at hp
    have hp2 := List.mem_of_mem_drop hp
    rcases List.mem_append.mp hp2 with hp3 | hp3
    · exact hist p hp3
    · rw [List.mem_singleton.mp hp3]
      exact hmid
  have hspec : 20 ≤ (microState2 st b).priceHistory.length →
      calcVolatility (microState2 st b).priceHistory =
        some (popStdDev (specLogReturns
          ((microState2 st b).priceHistory.drop
            ((microState2 st b).priceHistory.length - 20)))) :=
    fun hlen => calcVolatility_of_pos hlen hpos
  rw [microAnalyze_of_valid st hb]
  refine ⟨_, rfl, ?_, hspec, ?_⟩
  · rw [microMetrics_volatility]
    cases hcv : calcVolatility (microState2 st b).priceHistory with
    | none =>
      show (none : Option ℝ) = none ↔
        (microState2 st b).priceHistory.length < 20 ∨ (none : Option ℝ) = some 0
      constructor
      · intro _
        by_cases hlen : (microState2 st b).priceHistory.length < 20
        · exact Or.inl hlen
        · have h20 := hspec (by omega)
          rw [hcv] at h20
          exact absurd h20 (by simp)
      · intro _
        rfl
    | some v =>
      have hlen : ¬((microState2 st b).priceHistory.length < 20) := by
        intro hlen
        unfold calcVolatility at hcv
        rw [if_pos hlen] at hcv
        exact absurd hcv (by simp)
      show (if v = 0 then none else some (roundR 6 v)) = none ↔
        (microState2 st b).priceHistory.length < 20 ∨ some v = some 0
      by_cases hv : v = 0
      · subst hv
        rw [if_pos rfl]
        exact iff_of_true rfl (Or.inr rfl)
      · rw [if_neg hv]
        constructor
        · intro hcontra
          exact absurd hcontra (by simp)
        · intro hor
          rcases hor with hor | hor
          · exact absurd hor hlen
          · exact absurd (Option.some_inj.mp hor) hv
  · intro v hv
    rw [microMetrics_volatility] at hv
    cases hcv : calcVolatility (microState2 st b).priceHistory with
    | none =>
      rw [hcv] at hv
      exact absurd hv (by simp)
    | some w =>
      rw [hcv] at hv
      by_cases hw : w = 0
      · rw [show (match some w with
            | some v => if v = 0 then none else some (roundR 6 v)
            | none => (none : Option ℝ)) = if w = 0 then none else some (roundR 6 w)
            from rfl, if_pos hw] at hv
        exact absurd hv (by simp)
      · rw [show (match some w with
            | some v => if v = 0 then none else some (roundR 6 v)
            | none => (none : Option ℝ)) = if w = 0 then none else some (roundR 6 w)
            from rfl, if_neg hw] at hv
        have hlen : ¬((microState2 st b).priceHistory.length < 20) := by
          intro hlen
          unfold calcVolatility at hcv
          rw [if_pos hlen] at hcv
          exact absurd hcv (by simp)
        have h20 := hspec (by omega)
        rw [hcv] at h20
        rw [← Option.some_inj.mp h20, ← Option.some_inj.mp hv]

/-- C4 witness: the default (empty-history) analyzer and a concrete
valid book. -/
theorem claim_C4_witness :
    (⟨[⟨100, 10⟩], [⟨101, 5⟩]⟩ : OrderBook).Valid ∧
    (∀ p ∈ defaultM.priceHistory, 0 < p) ∧
    (∃ m, (microAnalyze defaultM ⟨[⟨100, 10⟩], [⟨101, 5⟩]⟩).1 = .ok m ∧
      (m.volatility = none ↔
        (microState2 defaultM ⟨[⟨100, 10⟩], [⟨101, 5⟩]⟩).priceHistory.length < 20 ∨
        calcVolatility (microState2 defaultM ⟨[⟨100, 10⟩], [⟨101, 5⟩]⟩).priceHistory = some 0) ∧
      (20 ≤ (microState2 defaultM ⟨[⟨100, 10⟩], [⟨101, 5⟩]⟩).priceHistory.length →
        calcVolatility (microState2 defaultM ⟨[⟨100, 10⟩], [⟨101, 5⟩]⟩).priceHistory =
          some (popStdDev (specLogReturns
            ((microState2 defaultM ⟨[⟨100, 10⟩], [⟨101, 5⟩]⟩).priceHistory.drop
              ((microState2 defaultM ⟨[⟨100, 10⟩], [⟨101, 5⟩]⟩).priceHistory.length - 20))))) ∧
      (∀ v, m.volatility = some v →
        v = roundR 6 (popStdDev (specLogReturns
          ((microState2 defaultM ⟨[⟨100, 10⟩], [⟨101, 5⟩]⟩).priceHistory.drop
            ((microState2 defaultM ⟨[⟨100, 10⟩], [⟨101, 5⟩]⟩).priceHistory.length - 20)))))) :=
  ⟨by decide, by simp [defaultM, initM],
    claim_C4_volatility defaultM ⟨[⟨100, 10⟩], [⟨101, 5⟩]⟩ (by decide)
      (by simp [defaultM, initM])⟩

theorem pushCap_replicate {m : ℚ} {j cap : ℕ} (h : j + 1 ≤ cap) :
    pushCap cap (List.replicate j m) m = List.replicate (j + 1) m := by
  unfold pushCap
  simp only [List.length_append, List.length_replicate, List.length_singleton]
  rw [show j + 1 - cap = 0 from by omega, List.drop_zero, ← List.replicate_succ']

theorem microMid_constBook : microMid constBook = 201 / 2 := by
  unfold microMid constBook
  norm_num [List.headI]

theorem microAnalyze_state_const (st : MState) :
    (microAnalyze st constBook).2.priceHistory =
      pushCap st.priceHistorySize st.priceHistory (201 / 2) ∧
    (microAnalyze st constBook).2.priceHistorySize = st.priceHistorySize := by
  have hv : constBook.Valid := by decide
  rw [microAnalyze_of_valid st hv]
  constructor
  · show (microState2 st constBook).priceHistory = _
    rw [(microState2_priceHistory st constBook).1, microMid_constBook]
  · rfl

theorem runM_const : ∀ k, k ≤ 100 →
    (runMState defaultM (List.replicate k constBook)).priceHistory =
      List.replicate k (201 / 2) ∧
    (runMState defaultM (List.replicate k constBook)).priceHistorySize = 100 := by
  intro k
  induction k with
  | zero => exact fun _ => ⟨rfl, rfl⟩
  | succ j ih =>
    intro hk1
    have ihh := ih (by omega)
    have hsplit : runMState defaultM (List.replicate (j + 1) constBook) =
        (microAnalyze (runMState defaultM (List.replicate j constBook)) constBook).2 := by
      unfold runMState
      rw [List.replicate_succ', List.foldl_append]
      rfl
    rw [hsplit]
    have hstep := microAnalyze_state_const (runMState defaultM (List.replicate j constBook))
    constructor
    · rw [hstep.1, ihh.2, ihh.1]
      exact pushCap_replicate (by omega)
    · rw [hstep.2, ihh.2]

theorem specLogReturns_replicate {m : ℚ} (hm : 0 < m) (n : ℕ) :
    specLogReturns (List.replicate n m) = List.replicate (n - 1) 0 := by
  unfold specLogReturns
  rw [List.tail_replicate, List.zip_replicate, List.map_replicate]
  have hmin : min n (n - 1) = n - 1 := by omega
  rw [hmin]
  have hlog : Real.log ((m : ℝ) / (m : ℝ)) = 0 := by
    rw [div_self (by exact_mod_cast ne_of_gt hm), Real.log_one]
  rw [hlog]

theorem popStdDev_replicate_zero (n : ℕ) : popStdDev (List.replicate n (0 : ℝ)) = 0 := by
  unfold popStdDev
  simp [List.sum_replicate, List.map_replicate]

theorem calcVolatility_const20 : calcVolatility (List.replicate 20 (201 / 2 : ℚ)) = some 0 := by
  have hpos : ∀ p ∈ List.replicate 20 (201 / 2 : ℚ), 0 < p := by
    intro p hp
    rw [List.eq_of_mem_replicate hp]
    norm_num
  have h := calcVolatility_of_pos (by simp) hpos
  rw [show (List.replicate 20 (201 / 2 : ℚ)).length - 20 = 0 from by simp,
    List.drop_zero, specLogReturns_replicate (by norm_num) 20] at h
  rw [h, popStdDev_replicate_zero]

/-- C4 counterexample: twenty analyze calls on the same valid book leave
twenty mid-prices in the history, yet the twentieth call returns
volatility None, because the zero standard deviation is falsy in the
source guard round(volatility, 6) if volatility else None; the claim as
stated demands a non-None volatility once 20 points are present. -/
theorem claim_C4_counterexample :
    ((microAnalyze constState19 constBook).1.map fun m => m.volatility) = .ok none ∧
    (microAnalyze constState19 constBook).2.priceHistory.length = 20 := by
  have hv : constBook.Valid := by decide
  have hrun := runM_const 19 (by omega)
  have hhist : (microState2 constState19 constBook).priceHistory =
      List.replicate 20 (201 / 2) := by
    rw [(microState2_priceHistory constState19 constBook).1, microMid_constBook]
    show pushCap constState19.priceHistorySize constState19.priceHistory (201 / 2) = _
    unfold constState19
    rw [hrun.1, hrun.2]
    exact pushCap_replicate (by omega)
  constructor
  · rw [microAnalyze_of_valid constState19 hv]
    show Except.ok (microMetrics constState19 constBook _).volatility = Except.ok none
    rw [microMetrics_volatility, hhist, calcVolatility_const20]
    simp
  · rw [microAnalyze_of_valid constState19 hv]
    show (microState2 constState19 constBook).priceHistory.length = 20
    rw [hhist, List.length_replicate]

/-- C10 witness: the default configuration, no prior calls, and a
concrete valid book. -/
theorem claim_C10_witness :
    (0 : ℚ) ≤ 1 / 20 ∧ (1 : ℚ) / 20 < 1 ∧ (0 : ℚ) < 5 ∧ (0 : ℚ) ≤ 3 ∧
    (∀ x ∈ ([] : List OrderBook), x.Valid) ∧
    defaultD = runDState (initD 5 50 (7 / 10) 3 (1 / 20)) [] ∧
    (⟨[⟨100, 10⟩], [⟨101, 5⟩]⟩ : OrderBook).Valid ∧
    (0 ≤ (detAnalyze defaultD ⟨[⟨100, 10⟩], [⟨101, 5⟩]⟩).1.overallRiskScore ∧
     (detAnalyze defaultD ⟨[⟨100, 10⟩], [⟨101, 5⟩]⟩).1.overallRiskScore ≤ 100 ∧
     0 ≤ (detAnalyze defaultD ⟨[⟨100, 10⟩], [⟨101, 5⟩]⟩).1.spoofingRisk ∧
     (detAnalyze defaultD ⟨[⟨100, 10⟩], [⟨101, 5⟩]⟩).1.spoofingRisk ≤ 100 ∧
     0 ≤ (detAnalyze defaultD ⟨[⟨100, 10⟩], [⟨101, 5⟩]⟩).1.liquidityScore ∧
     (detAnalyze defaultD ⟨[⟨100, 10⟩], [⟨101, 5⟩]⟩).1.liquidityScore ≤ 100) :=
  ⟨by norm_num, by norm_num, by norm_num, by norm_num, by simp, rfl, by decide,
    claim_C10_score_ranges 5 50 (7 / 10) 3 (1 / 20) (by norm_num) (by norm_num)
      (by norm_num) (by norm_num) [] (by simp) defaultD rfl
      ⟨[⟨100, 10⟩], [⟨101, 5⟩]⟩ (by decide)⟩

end Market
